import Mathlib

set_option maxHeartbeats 1000000

namespace Bigraph

/-!
A shallow embedding of `bigraph_schema/registry.py`.

Python values become the inductive `PyVal`; dicts are insertion-ordered
association lists with string keys (every dict this code builds is
string-keyed); a callable is represented by its qualified module name and its
parameter names.  Raising is modelled with `Except`; functions that mutate an
object and can then raise return the mutated state inside the error.

Recursion through nested dictionaries is not structural for Lean, so every
recursive function takes an explicit fuel argument and is structurally
recursive on it (which keeps every definition kernel-computable).  Exhausting
the fuel yields the designated `RecursionError` outcome, standing for Python
blowing its recursion limit; all concrete evaluations use ample fuel, and
fuel-generic theorems quantify over it.
-/

/-- Python-like dynamic values, the data manipulated by `bigraph_schema.registry`. -/
inductive PyVal where
  | none : PyVal
  | bool : Bool → PyVal
  | int : Int → PyVal
  | str : String → PyVal
  | list : List PyVal → PyVal
  | dict : List (String × PyVal) → PyVal
  | func : String → List String → PyVal
deriving Repr

/-- Lookup of a key in a Python dict (association list, first match). -/
def lookupKey : List (String × PyVal) → String → Option PyVal
  | [], _ => Option.none
  | (k', v) :: rest, k => if k' = k then some v else lookupKey rest k

/-- `k in d` for a Python dict. -/
def hasKey (l : List (String × PyVal)) (k : String) : Bool :=
  (lookupKey l k).isSome

/-- `d[k] = v` for a Python dict: update in place when the key exists
(keeping its position), append otherwise. -/
def dictSetList : List (String × PyVal) → String → PyVal → List (String × PyVal)
  | [], k, v => [(k, v)]
  | (k', v') :: rest, k, v =>
      if k' = k then (k', v) :: rest else (k', v') :: dictSetList rest k v

/-- `d.get(k)` for a Python dict: absent keys give Python `None`. -/
def dictGetD (l : List (String × PyVal)) (k : String) : PyVal :=
  (lookupKey l k).getD .none

/-- Python truthiness: `None`, `False`, `0`, empty string/list/dict are falsy. -/
def pyFalsy : PyVal → Bool
  | .none => true
  | .bool b => !b
  | .int n => n == 0
  | .str s => s.isEmpty
  | .list xs => xs.isEmpty
  | .dict entries => entries.isEmpty
  | .func _ _ => false

def PyVal.isDict : PyVal → Bool
  | .dict _ => true
  | _ => false

def PyVal.isStr : PyVal → Bool
  | .str _ => true
  | _ => false

def PyVal.isNone : PyVal → Bool
  | .none => true
  | _ => false

/-- Python iteration `for x in v`: lists yield elements, dicts their keys,
strings their characters; anything else raises TypeError. -/
def pyIterE : PyVal → Except String (List PyVal)
  | .list xs => .ok xs
  | .dict entries => .ok (entries.map (fun kv => PyVal.str kv.1))
  | .str s => .ok (s.toList.map (fun c => PyVal.str (String.mk [c])))
  | _ => .error "TypeError: object is not iterable"

/-- The comparison loop for Python dict equality, parameterized by the value
comparison (the fuelled `pyEq` one level down): every key of the left dict
must be present in the right with an equal value. -/
def pyEqDGo (cmp : PyVal → PyVal → Bool) :
    List (String × PyVal) → List (String × PyVal) → Bool
  | [], _ => true
  | (k, v) :: rest, b =>
      (match lookupKey b k with
       | some w => cmp v w
       | Option.none => false) && pyEqDGo cmp rest b

/-- Pairwise list comparison, parameterized the same way. -/
def pyEqLGo (cmp : PyVal → PyVal → Bool) : List PyVal → List PyVal → Bool
  | [], [] => true
  | x :: xs, y :: ys => cmp x y && pyEqLGo cmp xs ys
  | _, _ => false

/-- Python `==` (structural, order-insensitive on dicts, `True == 1`).
Functions compare by qualified name and parameter list, standing in for
Python's identity comparison of function objects.  Fuel bounds the nesting
depth of the compared values. -/
def pyEq : Nat → PyVal → PyVal → Bool
  | 0, _, _ => false
  | fuel + 1, a, b =>
      match a, b with
      | .none, .none => true
      | .bool x, .bool y => x == y
      | .bool x, .int y => (if x then (1 : Int) else 0) == y
      | .int x, .bool y => x == (if y then (1 : Int) else 0)
      | .int x, .int y => x == y
      | .str x, .str y => x == y
      | .func x px, .func y py => x == y && px == py
      | .list x, .list y => pyEqLGo (pyEq fuel) x y
      | .dict x, .dict y => x.length == y.length && pyEqDGo (pyEq fuel) x y
      | _, _ => false

/-! Reserved schema key sets from `bigraph_schema/registry.py` (lines 17-67). -/

def requiredSchemaKeys : List String :=
  ["_default", "_apply", "_check", "_serialize", "_deserialize", "_divide"]

def optionalSchemaKeys : List String :=
  ["_type", "_value", "_description", "_type_parameters", "_super"]

def typeSchemaKeys : List String :=
  requiredSchemaKeys ++ optionalSchemaKeys

def functionKeysList : List String :=
  ["_apply", "_check", "_divide", "_react", "_serialize", "_deserialize"]

def overridableSchemaKeys : List String :=
  ["_type", "_default", "_apply", "_check", "_serialize", "_deserialize",
   "_value", "_divide", "_description"]

def nonoverridableSchemaKeys : List String :=
  typeSchemaKeys.filter (fun k => k ∉ overridableSchemaKeys)

def mergeSchemaKeys : List String :=
  ["_ports", "_type_parameters"]

def concatenateSchemaKeys : List String :=
  ["_super"]

/-- Is this Python value an empty iterable?  Used where the source iterates a
value that is not a mapping: an empty iterable makes the loop a no-op. -/
def pyEmptyIter : PyVal → Bool
  | .list [] => true
  | .dict [] => true
  | .str s => s.isEmpty
  | _ => false

/-- `type_merge(dct, merge_dct, path, merge_supers)` (registry.py lines
77-110): iterate the keys of `merge_dct`, mutating `dct`; never overwrite a
key that is not overridable, structurally mergeable or concatenable — raise
instead, without comparing the two values.  The recursive call in the source
(line 99) does not pass `merge_supers`, which therefore reverts to its
default `True` below the top level.  Where the source would recurse into or
extend a non-mapping/non-list, iterating or indexing it raises unless the
iterable is empty (then the loop no-ops). -/
def typeMerge : Nat → List (String × PyVal) → List (String × PyVal) →
    List String → Bool → Except String (List (String × PyVal))
  | _, dct, [], _, _ => .ok dct
  | 0, _, _ :: _, _, _ => .error "RecursionError"
  | fuel + 1, dct, (k, mv) :: rest, path, ms =>
      let step : Except String (List (String × PyVal)) :=
        match lookupKey dct k with
        | Option.none => .ok (dictSetList dct k mv)
        | some dv =>
          if k ∈ overridableSchemaKeys then .ok (dictSetList dct k mv)
          else if k ∈ mergeSchemaKeys ∨ (dv.isDict ∧ mv.isDict) then
            match dv, mv with
            | .dict de, .dict me =>
                (typeMerge fuel de me (path ++ [k]) true).map
                  (fun merged => dictSetList dct k (.dict merged))
            | _, _ =>
                if pyEmptyIter mv then .ok dct
                else .error "TypeError: cannot merge into a non-mapping"
          else if k ∈ concatenateSchemaKeys then
            if k ≠ "_super" ∨ ms then
              match dv with
              | .list dl =>
                  (pyIterE mv).map (fun more => dictSetList dct k (.list (dl ++ more)))
              | _ => .error "AttributeError: extend on a non-list"
            else .ok dct
          else
            .error ("cannot merge types at path " ++ String.intercalate "/" (path ++ [k]))
      match step with
      | .ok dct' => typeMerge fuel dct' rest path ms
      | .error e => .error e

/-- `deep_merge` (lines 113-128) on dict entries: mapping-valued keys present
on both sides recurse, everything else is overwritten, no conflict ever
raised. -/
def deepMergeEntries : Nat → List (String × PyVal) → List (String × PyVal) →
    List (String × PyVal)
  | _, d, [] => d
  | 0, d, _ :: _ => d
  | fuel + 1, d, (k, v) :: rest =>
      let d' := match lookupKey d k, v with
        | some (.dict dk), .dict vk => dictSetList d k (.dict (deepMergeEntries fuel dk vk))
        | _, _ => dictSetList d k v
      deepMergeEntries fuel d' rest

/-! ## Tree path algebra (registry.py lines 158-310)

`establish_path` and `set_path` mutate the tree in place and hand back a
reference to an interior node.  The embedding threads the whole top-level
tree together with the cursor (the absolute path of the node the reference
points to): `nodeAt` reads the node a cursor denotes, `setNodeAt` rebuilds
the tree with that node replaced. -/

def nodeAt (tree : PyVal) (path : List String) : Option PyVal :=
  match path, tree with
  | [], v => some v
  | h :: t, .dict entries =>
      (match lookupKey entries h with
       | some v => nodeAt v t
       | Option.none => Option.none)
  | _ :: _, _ => Option.none

def setNodeAt (tree : PyVal) (path : List String) (v : PyVal) : PyVal :=
  match path, tree with
  | [], _ => v
  | h :: t, .dict entries =>
      (match lookupKey entries h with
       | some sub => .dict (dictSetList entries h (setNodeAt sub t v))
       | Option.none => .dict (dictSetList entries h (setNodeAt (.dict []) t v)))
  | _ :: _, tree => tree

/-- `get_path(tree, path)` (lines 158-177).  The guard `not tree or head not
in tree` returns `None` for falsy nodes and absent keys; a membership test
against a truthy non-container raises TypeError, as does string/list indexing
by a string key when the membership test succeeds.  (Comparing a list element
against a string key can never recurse, so depth-1 equality suffices.) -/
def getPath (tree : PyVal) (path : List String) : Except String PyVal :=
  match path with
  | [] => .ok tree
  | head :: rest =>
    if pyFalsy tree then .ok .none
    else match tree with
      | .dict entries =>
          match lookupKey entries head with
          | some v => getPath v rest
          | Option.none => .ok .none
      | .str s =>
          if head = "" ∨ (s.splitOn head).length > 1 then
            .error "TypeError: string indices must be integers"
          else .ok .none
      | .list xs =>
          if xs.any (fun x => pyEq 1 x (.str head)) then
            .error "TypeError: list indices must be integers"
          else .ok .none
      | _ => .error "TypeError: argument is not a container"

/-- `establish_path(tree, path, top, cursor)` (lines 180-223).  A `..` head
restarts from `top` with path `cursor[:-1]` and a fresh cursor, silently
dropping the remaining segments (source line 213).  When the current node
holds `None` the source rebinds a local and builds a detached subtree; that
case is modelled as a failure here (it is unreachable from `None`-free trees,
which is all the registry ever builds). -/
def establishPath : Nat → PyVal → List String → List String →
    Except String (PyVal × List String)
  | _, top, cursor, [] => .ok (top, cursor)
  | 0, _, _, _ :: _ => .error "RecursionError"
  | fuel + 1, top, cursor, head :: rest =>
      if head = ".." then
        if cursor = [] then .error "trying to travel above the top of the tree"
        else establishPath fuel top [] cursor.dropLast
      else
        match nodeAt top cursor with
        | some (.dict entries) =>
            let top' := if hasKey entries head then top
                        else setNodeAt top cursor (.dict (dictSetList entries head (.dict [])))
            establishPath fuel top' (cursor ++ [head]) rest
        | _ => .error "TypeError: cannot establish a path into a non-mapping"

/-- `set_path(tree, path, value)` (lines 226-249): a `None` value returns
`None` immediately; an empty path returns the value; otherwise all but the
last segment are established and the value is assigned at the final one.  A
`None` incoming tree makes Python build the nodes detached and return the
original `None`; errors raised while establishing still propagate. -/
def setPath (fuel : Nat) (tree : PyVal) (path : List String) (value : PyVal) :
    Except String PyVal :=
  if value.isNone then .ok .none
  else match path with
  | [] => .ok value
  | _ :: _ =>
    let towards := path.dropLast
    let final := path.getLastD ""
    if tree.isNone then do
      let _ ← establishPath fuel (.dict []) [] towards
      .ok .none
    else do
      let td ← establishPath fuel tree [] towards
      match nodeAt td.1 td.2 with
      | some (.dict entries) =>
          .ok (setNodeAt td.1 td.2 (.dict (dictSetList entries final value)))
      | _ => .error "TypeError: item assignment on a non-mapping"

/-- Key a path segment denotes: only strings can match the string-keyed dicts
this code builds, so a non-string segment never matches. -/
def pathKey : PyVal → Option String
  | .str s => some s
  | _ => Option.none

/-- The combination `upon = get_path(tree, path[:-1]); del upon[path[-1]]`
from `remove_path` (lines 299-310), rebuilding the tree around the deletion.
Mirrors `get_path`: a falsy intermediate node or an absent segment makes
`get_path` return `None` and the deletion is skipped; the final `del` raises
KeyError when the key is absent and TypeError on non-mapping nodes. -/
def delAtPath (tree : PyVal) (segs : List (Option String)) (last : Option String) :
    Except String PyVal :=
  match segs with
  | [] =>
      match tree with
      | .none => .ok .none
      | .dict entries =>
          match last with
          | some k =>
              if hasKey entries k then
                .ok (.dict (entries.filter (fun kv => kv.1 ≠ k)))
              else .error "KeyError"
          | Option.none => .error "KeyError"
      | _ => .error "TypeError: item deletion on a non-mapping"
  | h :: t =>
      if pyFalsy tree then .ok tree
      else match tree with
        | .dict entries =>
            match h with
            | some k =>
                match lookupKey entries k with
                | some sub => do
                    let sub' ← delAtPath sub t last
                    .ok (.dict (dictSetList entries k sub'))
                | Option.none => .ok tree
            | Option.none => .ok tree
        | .str s =>
            match h with
            | some k =>
                if k = "" ∨ (s.splitOn k).length > 1 then
                  .error "TypeError: string indices must be integers"
                else .ok tree
            | Option.none => .error "TypeError: string indices must be integers"
        | .list xs =>
            match h with
            | some k =>
                if xs.any (fun x => pyEq 1 x (.str k)) then
                  .error "TypeError: list indices must be integers"
                else .ok tree
            | Option.none => .error "TypeError: list index modelled out of scope"
        | _ => .error "TypeError: argument is not a container"

/-- `remove_path(tree, path)` (lines 299-310) with the path given as a Python
value, as `apply_tree` passes it.  `None` or an empty path returns `None`;
a string path walks its characters as segments. -/
def removePath (tree : PyVal) (path : PyVal) : Except String PyVal :=
  match path with
  | .none => .ok .none
  | .list [] => .ok .none
  | .dict [] => .ok .none
  | .str "" => .ok .none
  | .list segs =>
      delAtPath tree (segs.dropLast.map pathKey) (pathKey (segs.getLastD .none))
  | .str s =>
      let chars := s.toList.map (fun c => some (String.mk [c]))
      delAtPath tree chars.dropLast (chars.getLastD Option.none)
  | .dict _ => .error "TypeError: dict path cannot be sliced"
  | _ => .error "TypeError: object has no length"

/-! ## Registry (registry.py lines 313-373) -/

/-- `Registry.__init__`: a mapping, the set of main keys and the optional
parameter-name contract for registered callables. -/
structure Registry where
  registry : List (String × PyVal)
  mainKeys : List String
  functionKeys : List String
deriving Repr

def insertIfAbsent (l : List String) (k : String) : List String :=
  if k ∈ l then l else l ++ [k]

/-- The signature-contract assertion of `Registry.register` (lines 339-344):
only checked when the item is callable and the registry declares a contract. -/
def sigOk (fk : List String) (item : PyVal) : Bool :=
  match item with
  | .func _ params => fk.isEmpty || params.all (fun p => p ∈ fk)
  | _ => true

/-- The per-key loop of `Registry.register` (lines 348-355), threading the
mapping.  On a conflict the raise formats `self.registry[key]` — the primary
key, not the conflicting one — which itself raises KeyError when the primary
key is absent.  Errors carry the mapping as mutated so far (earlier keys of a
multi-key registration stay written). -/
def registerKeysLoop (fuel : Nat) (primary : String) (item : PyVal) (force : Bool) :
    List (String × PyVal) → List String →
    Except (String × List (String × PyVal)) (List (String × PyVal))
  | reg, [] => .ok reg
  | reg, rk :: rest =>
      match lookupKey reg rk with
      | some old =>
          if force then registerKeysLoop fuel primary item force (dictSetList reg rk item) rest
          else if pyEq fuel item old then registerKeysLoop fuel primary item force reg rest
          else
            match lookupKey reg primary with
            | some _ => .error ("registry already contains an entry for " ++ rk, reg)
            | Option.none => .error ("KeyError", reg)
      | Option.none => registerKeysLoop fuel primary item force (dictSetList reg rk item) rest

/-- `Registry.register(key, item, alternate_keys, force)` (lines 322-356).
The error value carries the registry state at the point of the raise; the
fuel only feeds the Python `!=` comparison of nested values. -/
def registryRegister (fuel : Nat) (r : Registry) (key : String) (item : PyVal)
    (alternateKeys : List String) (force : Bool) :
    Except (String × Registry) Registry :=
  if !sigOk r.functionKeys item then
    .error ("Function keys are not all in the function_keys", r)
  else
    match registerKeysLoop fuel key item force r.registry (key :: alternateKeys) with
    | .ok reg' =>
        .ok { r with registry := reg', mainKeys := insertIfAbsent r.mainKeys key }
    | .error (msg, reg') => .error (msg, { r with registry := reg' })

/-- `Registry.access(key)` (lines 362-367): `self.registry.get(key)`. -/
def registryAccess (r : Registry) (key : String) : Option PyVal :=
  lookupKey r.registry key

/-! ## Generic apply engine (registry.py lines 376-404)

`apply_tree(current, update, bindings, core)` is parametric in `core`, of
which it uses only `access`, `check`, `apply` and `default` (duck typing in
the source; an explicit structure of functions here).  `core.access` returns
Python `None` for not-found, hence plain `PyVal`.  The caller-supplied
`bindings` dict is mutated at key `'leaf'`; the embedding returns the result
together with the bindings as mutated. -/

structure Core where
  access : PyVal → PyVal
  check : PyVal → PyVal → Bool
  apply : PyVal → PyVal → PyVal → PyVal
  default : PyVal → PyVal

/-- The `for key, branch in update.items()` loop of `apply_tree`
(lines 383-398), parameterized by the recursive call one fuel level down. -/
def applyEntriesGo (rec : PyVal → PyVal → PyVal → Except String (PyVal × PyVal))
    (core : Core) (leafType : PyVal) :
    PyVal → List (String × PyVal) → PyVal → Except String (PyVal × PyVal)
  | cur, [], b => .ok (cur, b)
  | cur, (key, branch) :: rest, b =>
      if key = "_add" then
        match cur, branch with
        | .dict ce, .dict badd =>
            let cur' := PyVal.dict (badd.foldl (fun acc kv => dictSetList acc kv.1 kv.2) ce)
            applyEntriesGo rec core leafType cur' rest b
        | .dict _, _ => .error "TypeError: update from a non-mapping"
        | _, _ => .error "AttributeError: update on a non-mapping"
      else if key = "_remove" then
        match removePath cur branch with
        | .ok cur' => applyEntriesGo rec core leafType cur' rest b
        | .error e => .error e
      else if core.check leafType branch then
        match cur with
        | .dict ce =>
            let cur' := PyVal.dict
              (dictSetList ce key (core.apply leafType (dictGetD ce key) branch))
            applyEntriesGo rec core leafType cur' rest b
        | _ => .error "AttributeError: get on a non-mapping"
      else
        match cur with
        | .dict ce =>
            match rec (dictGetD ce key) branch b with
            | .ok rb =>
                applyEntriesGo rec core leafType (.dict (dictSetList ce key rb.1)) rest rb.2
            | .error e => .error e
        | _ => .error "AttributeError: get on a non-mapping"

/-- `apply_tree(current, update, bindings, core)` (lines 376-404).  The
bindings dict is mutated first: `bindings['leaf']` is overwritten with the
resolved leaf type before any dispatch happens. -/
def applyTree : Nat → Core → PyVal → PyVal → PyVal → Except String (PyVal × PyVal)
  | 0, _, _, _, _ => .error "RecursionError"
  | fuel + 1, core, current, update, bindings =>
      match bindings with
      | .dict be =>
          match lookupKey be "leaf" with
          | Option.none => .error "KeyError: leaf"
          | some leafName =>
              let leafType := core.access leafName
              let b' := PyVal.dict (dictSetList be "leaf" leafType)
              match update with
              | .dict ue =>
                  let cur0 := if pyFalsy current then PyVal.dict [] else current
                  applyEntriesGo (applyTree fuel core) core leafType cur0 ue b'
              | _ =>
                  let cur0 := if current.isNone then core.default leafType else current
                  .ok (core.apply leafType cur0 update, b')
      | _ => .error "TypeError: bindings is not a mapping"

/-- `apply_any` (lines 407-415): the `any` type's apply function. -/
def applyAny (fuel : Nat) (core : Core) (current update : PyVal) :
    Except String PyVal :=
  match current with
  | .dict _ =>
      (applyTree fuel core current update (.dict [("leaf", .str "any")])).map Prod.fst
  | _ => .ok update

/-- `check_any` (lines 418-419). -/
def checkAny (_state : PyVal) : Bool := true

/-- `serialize_any` (lines 422-423): `str(value)`; the exact Python rendering
of compound values is irrelevant to every claim, so a crude printer stands
in. -/
def serializeAny (value : PyVal) : PyVal :=
  match value with
  | .str s => .str s
  | .int n => .str (toString n)
  | .bool true => .str "True"
  | .bool false => .str "False"
  | .none => .str "None"
  | _ => .str "object"

/-- `deserialize_any` (lines 426-427): identity. -/
def deserializeAny (serialized : PyVal) : PyVal := serialized

/-! ## TypeRegistry (registry.py lines 430-642) -/

/-- `k in v` for an arbitrary Python value: mappings test keys, strings test
substrings, lists test membership by `==` (depth-1 equality suffices against
a string); anything else raises TypeError. -/
def pyContains : PyVal → String → Except String Bool
  | .dict entries, k => .ok (hasKey entries k)
  | .str s, k => .ok (k.isEmpty || (s.splitOn k).length > 1)
  | .list xs, k => .ok (xs.any (fun x => pyEq 1 x (.str k)))
  | _, _ => .error "TypeError: argument is not a container"

/-- Python `str()` restricted to the scalar values that ever reach a key
position in this code; compound values get a crude constant rendering
(unreachable in practice: parameter names and paths are strings). -/
def pyKeyStr : PyVal → String
  | .str s => s
  | .int n => toString n
  | .bool true => "True"
  | .bool false => "False"
  | .none => "None"
  | _ => "object"

/-- The external collaborators of the type registry: the qualified-name
function resolver (`local_lookup_module`) and the type-expression parser
(`parse_expression`, which returns its input unchanged when it has nothing to
say). -/
structure Externals where
  localLookup : String → Option PyVal
  parseExpr : String → PyVal

/-- The type-parameter synchronization block of `TypeRegistry.access`
(lines 585-593): for each declared parameter, mirror a present per-parameter
field into the `_bindings` mapping, or vice versa. -/
def syncTypeParams (fe : List (String × PyVal)) :
    Except String (List (String × PyVal)) := do
  let tps ← pyIterE (dictGetD fe "_type_parameters")
  tps.foldlM (fun fe tp => do
    let tpn := pyKeyStr tp
    let pk := "_" ++ tpn
    if hasKey fe pk then
      match lookupKey fe "_bindings" with
      | some (.dict bs) =>
          pure (dictSetList fe "_bindings" (.dict (dictSetList bs tpn (dictGetD fe pk))))
      | some _ => .error "TypeError: item assignment on a non-mapping"
      | Option.none =>
          pure (dictSetList fe "_bindings" (.dict [(tpn, dictGetD fe pk)]))
    else
      match lookupKey fe "_bindings" with
      | some (.dict bs) =>
          if hasKey bs tpn then pure (dictSetList fe pk (dictGetD bs tpn))
          else pure fe
      | some other => do
          let b ← pyContains other tpn
          if b then .error "TypeError: item access on a non-mapping" else pure fe
      | Option.none => pure fe) fe

/-- `len(v)` where Python requires a sized value. -/
def pyLen : PyVal → Except String Nat
  | .list l => .ok l.length
  | .dict d => .ok d.length
  | .str s => .ok s.length
  | _ => .error "TypeError: object has no length"

/-- The final rewrap of `TypeRegistry.access` on the found value (lines
610-626): a mapping optionally gets its type parameters synchronized; on
anything else Python first evaluates `'_type_parameters' in found`, which
raises on a non-container. -/
def accessFinish : PyVal → Except String (Option PyVal)
  | .dict fe =>
      if hasKey fe "_type_parameters" then
        match syncTypeParams fe with
        | .error e => .error e
        | .ok fe' => .ok (some (.dict fe'))
      else .ok (some (.dict fe))
  | other =>
      match pyContains other "_type_parameters" with
      | .error e => .error e
      | .ok b =>
          if b then .error "TypeError: item access on a non-mapping"
          else .ok (some other)

/-- The `_type` branch of `TypeRegistry.access` (lines 567-626) on a mapping
schema, parameterized by the recursive accessor one fuel level down.
`found_keys = overridable_schema_keys & schema.keys()`; since `'_type'` is
itself overridable it is nonempty whenever this branch runs, so the right
operand of the `or` (which would raise on `found=None`) is never reached. -/
def accessTypeGo (rec : PyVal → Except String (Option PyVal)) (fuel : Nat)
    (entries : List (String × PyVal)) : Except String (Option PyVal) :=
  match rec (dictGetD entries "_type") with
  | .error e => .error e
  | .ok found0 =>
    match
      (if !(entries.filter (fun kv => kv.1 ∈ overridableSchemaKeys)).isEmpty
       then Except.ok true
       else match found0 with
         | some f => pyContains f "_type_parameters"
         | Option.none =>
            .error "TypeError: argument of type NoneType is not iterable")
    with
    | .error e => .error e
    | .ok enter =>
      match
        (if enter then
           if !(entries.filter (fun kv => kv.1 ∈ nonoverridableSchemaKeys)).isEmpty
           then Except.error "trying to override a non-overridable key"
           else
             match found0 with
             | some (.dict fe) =>
                Except.ok (PyVal.dict (deepMergeEntries fuel fe entries))
             | Option.none => Except.ok (PyVal.dict (deepMergeEntries fuel [] entries))
             | some _ => Except.error "TypeError: deep merge into a non-mapping"
         else Except.ok (found0.getD PyVal.none))
      with
      | .error e => .error e
      | .ok found1 => accessFinish found1

/-- The mapping case of `TypeRegistry.access` (lines 565-626). -/
def accessDictGo (rec : PyVal → Except String (Option PyVal)) (fuel : Nat)
    (entries : List (String × PyVal)) : Except String (Option PyVal) :=
  if hasKey entries "_description" then .ok (some (.dict entries))
  else if hasKey entries "_type" then accessTypeGo rec fuel entries
  else
    match entries.mapM (fun kv =>
        (rec kv.2).map (fun r => (kv.1, r.getD PyVal.none))) with
    | .error e => .error e
    | .ok es => .ok (some (.dict es))

/-- `dict(zip(type_parameters, bindings))` (line 604). -/
def zipBindings (tpl bl : List PyVal) : List (String × PyVal) :=
  (List.zip tpl bl).foldl (fun acc kv => dictSetList acc (pyKeyStr kv.1) kv.2) []

/-- The per-binding resolution loop of the two-element-list case
(lines 606-608), parameterized by the recursive accessor. -/
def bindParamsGo (rec : PyVal → Except String (Option PyVal)) :
    List (String × PyVal) → List (String × PyVal) →
    Except String (List (String × PyVal))
  | acc, [] => .ok acc
  | acc, (k, v) :: rest =>
      match rec v with
      | .error e => .error e
      | .ok r => bindParamsGo rec (dictSetList acc ("_" ++ k) (r.getD PyVal.none)) rest

/-- The list case of `TypeRegistry.access` (lines 596-609): singleton lists
unwrap, two-element lists bind type parameters, anything else raises on the
unpacking `inner, bindings = schema`. -/
def accessListGo (rec : PyVal → Except String (Option PyVal))
    (xs : List PyVal) : Except String (Option PyVal) :=
  match xs with
  | [] => .error "IndexError: list index out of range"
  | [x] => rec x
  | [x, b] =>
      (match rec x with
       | .error e => .error e
       | .ok found =>
         match pyLen b with
         | .error e => .error e
         | .ok blen =>
           if blen > 0 then
             match found with
             | Option.none => .error "AttributeError: NoneType has no attribute copy"
             | some (.dict fe) =>
                 (match lookupKey fe "_type_parameters" with
                  | Option.none => .error "KeyError: _type_parameters"
                  | some tps =>
                    match pyIterE tps with
                    | .error e => .error e
                    | .ok tpl =>
                      match pyIterE b with
                      | .error e => .error e
                      | .ok bl =>
                        match bindParamsGo rec
                            (dictSetList fe "_bindings" (.dict (zipBindings tpl bl)))
                            (zipBindings tpl bl) with
                        | .error e => .error e
                        | .ok fe2 => .ok (some (.dict fe2)))
             | some _ => .error "TypeError: bindings assignment on a non-mapping"
           else .ok found)
  | _ => .error "ValueError: too many values to unpack"

/-- The string case of `TypeRegistry.access` (lines 612-628): registry
lookup, then the parse fallback whose `try` swallows errors. -/
def accessStrGo (E : Externals) (reg : List (String × PyVal))
    (rec : PyVal → Except String (Option PyVal)) (fuel : Nat) (s : String) :
    Except String (Option PyVal) :=
  match lookupKey reg s with
  | some v => .ok (some v)
  | Option.none =>
      if s = "" ∨ s = "{}" then .ok Option.none
      else if pyEq fuel (E.parseExpr s) (.str s) then .ok Option.none
      else match rec (E.parseExpr s) with
        | .ok r => .ok r
        | .error _ => .ok Option.none

/-- `TypeRegistry.access(schema)` (lines 562-628) over a registry mapping
`reg`.  Python distinguishes returning `None` (`ok Option.none`) from raising
(`error`). -/
def access (E : Externals) (reg : List (String × PyVal)) :
    Nat → PyVal → Except String (Option PyVal)
  | 0, _ => .ok Option.none
  | Nat.succ fuel, .dict entries => accessDictGo (access E reg fuel) fuel entries
  | Nat.succ fuel, .list xs => accessListGo (access E reg fuel) xs
  | Nat.succ fuel, .str s => accessStrGo E reg (access E reg fuel) fuel s
  | Nat.succ _, _ => .ok Option.none

/-- `TypeRegistry.__init__` state (lines 435-457): the inherited mapping and
main keys, the supertype-edge map, and the five behavior sub-registries,
three of which declare a parameter-name contract. -/
structure TypeRegistry where
  registry : List (String × PyVal)
  mainKeys : List String
  supers : List (String × List String)
  applyR : Registry
  serializeR : Registry
  deserializeR : Registry
  divideR : Registry
  checkR : Registry
deriving Repr

inductive SubReg where
  | apply | serialize | deserialize | divide | check
deriving Repr, DecidableEq

/-- `find_registry(underscore_key)` (lines 467-477): strip the underscores
and look for a `<root>_registry` attribute; `_react` has none, so the call
through it fails.  (`_type` would return the registry itself but is not a
function key, so registration never reaches it.) -/
def findRegistry : String → Option SubReg
  | "_apply" => some .apply
  | "_serialize" => some .serialize
  | "_deserialize" => some .deserialize
  | "_divide" => some .divide
  | "_check" => some .check
  | _ => Option.none

def getSub (tr : TypeRegistry) : SubReg → Registry
  | .apply => tr.applyR
  | .serialize => tr.serializeR
  | .deserialize => tr.deserializeR
  | .divide => tr.divideR
  | .check => tr.checkR

def setSub (tr : TypeRegistry) : SubReg → Registry → TypeRegistry
  | .apply, r => { tr with applyR := r }
  | .serialize, r => { tr with serializeR := r }
  | .deserialize, r => { tr with deserializeR := r }
  | .divide, r => { tr with divideR := r }
  | .check, r => { tr with checkR := r }

/-- `function_module(func)`: the qualified module name of a function. -/
def functionModule : PyVal → String
  | .func n _ => n
  | _ => "object"

def supersSet : List (String × List String) → String → List String →
    List (String × List String)
  | [], k, v => [(k, v)]
  | (k', v') :: rest, k, v =>
      if k' = k then (k', v) :: rest else (k', v') :: supersSet rest k v

def supersGet : List (String × List String) → String → Option (List String)
  | [], _ => Option.none
  | (k', v) :: rest, k => if k' = k then some v else supersGet rest k

/-- One iteration of the normalization loop of `TypeRegistry.register`
(lines 507-542) at key `subkey` with original value `sub`.  Returns the
rewritten value, the registry state (sub-registries may gain entries) and the
last bound `module_key` (Python leaves the variable bound across iterations:
a behavior value that is neither a string nor a function stores the stale
name, or raises NameError when no earlier iteration bound one). -/
def normalizeStep (E : Externals) (fuel : Nat) (tr : TypeRegistry)
    (mk : Option String) (subkey : String) (sub : PyVal) :
    Except (String × TypeRegistry) (PyVal × TypeRegistry × Option String) :=
  if subkey ∈ functionKeysList then
    match findRegistry subkey with
    | Option.none => .error ("AttributeError: NoneType has no attribute access", tr)
    | some sel =>
      match sub with
      | .str moduleKey =>
          (match registryAccess (getSub tr sel) moduleKey with
           | some _ => .ok (.str moduleKey, tr, some moduleKey)
           | Option.none =>
              match E.localLookup moduleKey with
              | Option.none =>
                  .error ("function " ++ moduleKey ++ " not found for type data", tr)
              | some found =>
                  match registryRegister fuel (getSub tr sel) moduleKey found [] false with
                  | .ok sr' => .ok (.str moduleKey, setSub tr sel sr', some moduleKey)
                  | .error e => .error (e.1, setSub tr sel e.2))
      | .func n ps =>
          (match registryRegister fuel (getSub tr sel)
              (functionModule (.func n ps)) (.func n ps) [] false with
           | .ok sr' =>
              .ok (.str (functionModule (.func n ps)), setSub tr sel sr',
                   some (functionModule (.func n ps)))
           | .error e => .error (e.1, setSub tr sel e.2))
      | _ =>
          match mk with
          | some m => .ok (.str m, tr, some m)
          | Option.none => .error ("NameError: name module_key is not defined", tr)
  else if subkey ∉ typeSchemaKeys then
    match access E tr.registry fuel sub with
    | .error e => .error (e, tr)
    | .ok Option.none =>
        .error ("trying to register a new type, but it depends on a type which is not in the registry", tr)
    | .ok (some subschema) => .ok (subschema, tr, mk)
  else .ok (sub, tr, mk)

/-- The normalization loop of `TypeRegistry.register` (lines 507-542) over
all schema entries, in iteration order. -/
def normalizeEntries (E : Externals) (fuel : Nat) (tr : TypeRegistry)
    (mk : Option String) :
    List (String × PyVal) →
    Except (String × TypeRegistry) (List (String × PyVal) × TypeRegistry)
  | [] => .ok ([], tr)
  | (subkey, sub) :: rest =>
      match normalizeStep E fuel tr mk subkey sub with
      | .error e => .error e
      | .ok step =>
          match normalizeEntries E fuel step.2.1 step.2.2 rest with
          | .error e => .error e
          | .ok tail => .ok ((subkey, step.1) :: tail.1, tail.2)

/-- `super().register(...)` as called at the end of `TypeRegistry.register`
(line 548): the base Registry logic over the type registry's own mapping.
The TypeRegistry declares no parameter contract and the item is a dict, so
the callable check never fires. -/
def baseRegister (fuel : Nat) (tr : TypeRegistry) (key : String) (item : PyVal)
    (altKeys : List String) (force : Bool) :
    Except (String × TypeRegistry) TypeRegistry :=
  match registerKeysLoop fuel key item force tr.registry (key :: altKeys) with
  | .ok reg' =>
      .ok { tr with registry := reg', mainKeys := insertIfAbsent tr.mainKeys key }
  | .error e => .error (e.1, { tr with registry := e.2 })

/-- The `_super` normalization of `TypeRegistry.register` (lines 490-497):
extract the supertype names (wrapping a bare string, asserting strings) and
the possibly rewritten schema entries.  Iterating a dict `_super` value
yields its (string) keys, which all pass the assert. -/
def superName (key : String) (tr : TypeRegistry) :
    PyVal → Except (String × TypeRegistry) String
  | .str s => Except.ok s
  | _ => Except.error (("super for " ++ key ++ " must be a string"), tr)

def supersOf (tr : TypeRegistry) (key : String)
    (entries : List (String × PyVal)) :
    Except (String × TypeRegistry) (List String × List (String × PyVal)) :=
  match (lookupKey entries "_super").getD (.list []) with
  | .str s => Except.ok ([s], dictSetList entries "_super" (.list [.str s]))
  | .list l =>
      match l.mapM (superName key tr) with
      | .ok names => Except.ok (names, entries)
      | .error e => Except.error e
  | .dict d => Except.ok (d.map Prod.fst, entries)
  | _ => Except.error ("TypeError: supers object is not iterable", tr)

/-- The supertype-merge fold of `TypeRegistry.register` (lines 499-505):
for each supertype in order, deep-copy its registered schema (absent ones
default to `{}`) and merge the accumulated schema on top with supertype-list
concatenation suppressed. -/
def superStep (fuel : Nat) (tr1 : TypeRegistry)
    (acc : List (String × PyVal)) (su : String) :
    Except (String × TypeRegistry) (List (String × PyVal)) :=
  match (lookupKey tr1.registry su).getD (.dict []) with
  | .dict suEntries =>
      (match typeMerge fuel suEntries acc [] false with
       | .ok merged => Except.ok merged
       | .error e => Except.error (e, tr1))
  | _ => Except.error ("TypeError: supertype schema is not a mapping", tr1)

def superMergeFold (fuel : Nat) (tr1 : TypeRegistry) (supList : List String)
    (entries : List (String × PyVal)) :
    Except (String × TypeRegistry) (List (String × PyVal)) :=
  supList.foldlM (superStep fuel tr1) entries

/-- The mapping-schema body of `TypeRegistry.register` (lines 489-548):
record the supertype edges, fold the supertype merge, normalize every field
and delegate to the base register. -/
def trRegisterSchema (E : Externals) (fuel : Nat) (tr : TypeRegistry)
    (key : String) (entries : List (String × PyVal)) (altKeys : List String)
    (force : Bool) : Except (String × TypeRegistry) TypeRegistry :=
  match supersOf tr key entries with
  | .error e => .error e
  | .ok se =>
      match superMergeFold fuel { tr with supers := supersSet tr.supers key se.1 }
          se.1 se.2 with
      | .error e => .error e
      | .ok entries2 =>
          match normalizeEntries E fuel
              { tr with supers := supersSet tr.supers key se.1 }
              Option.none entries2 with
          | .error e => .error e
          | .ok norm => baseRegister fuel norm.2 key (.dict norm.1) altKeys force

/-- `TypeRegistry.register(key, schema, alternate_keys, force)`
(lines 480-548).  Errors carry the registry state as mutated up to the raise:
the supertype-edge entry is written before any later failure, and
behavior-function registrations into sub-registries also persist. -/
def trRegister (E : Externals) (fuel : Nat) (tr : TypeRegistry) (key : String)
    (schema0 : PyVal) (altKeys : List String) (force : Bool) :
    Except (String × TypeRegistry) TypeRegistry :=
  match schema0 with
  | .str s =>
      (match access E tr.registry fuel (.str s) with
       | .error e => Except.error (e, tr)
       | .ok o =>
          match o.getD PyVal.none with
          | .dict entries => trRegisterSchema E fuel tr key entries altKeys force
          | _ =>
              .error ("all type definitions must be dicts with the required keys", tr))
  | .dict entries => trRegisterSchema E fuel tr key entries altKeys force
  | _ =>
      .error ("all type definitions must be dicts with the required keys", tr)

/-- The state built by `TypeRegistry.__init__` before the seed registration:
empty mapping, empty supertype map, and the five sub-registries with their
parameter-name contracts (lines 435-457). -/
def trEmpty : TypeRegistry :=
  { registry := []
    mainKeys := []
    supers := []
    applyR := { registry := [], mainKeys := [],
                functionKeys := ["current", "update", "bindings", "core"] }
    serializeR := { registry := [], mainKeys := [],
                    functionKeys := ["value", "bindings", "core"] }
    deserializeR := { registry := [], mainKeys := [],
                      functionKeys := ["serialized", "bindings", "core"] }
    divideR := { registry := [], mainKeys := [], functionKeys := [] }
    checkR := { registry := [], mainKeys := [], functionKeys := [] } }

def applyAnyF : PyVal :=
  .func "bigraph_schema.registry.apply_any" ["current", "update", "bindings", "core"]

def checkAnyF : PyVal :=
  .func "bigraph_schema.registry.check_any" ["state", "bindings", "core"]

def serializeAnyF : PyVal :=
  .func "bigraph_schema.registry.serialize_any" ["value", "bindings", "core"]

def deserializeAnyF : PyVal :=
  .func "bigraph_schema.registry.deserialize_any" ["serialized", "bindings", "core"]

/-- The seed schema for type `any` registered by the constructor
(lines 459-464), with its behavior functions given as callables. -/
def anySchema : PyVal :=
  .dict [("_type", .str "any"), ("_apply", applyAnyF), ("_check", checkAnyF),
         ("_serialize", serializeAnyF), ("_deserialize", deserializeAnyF)]

/-- A fully constructed `TypeRegistry()`: the seed registration of `any`
dispatches to the overridden `register`.  It succeeds, so the error branch is
never taken (kept only for totality). -/
def trInit (E : Externals) (fuel : Nat) : TypeRegistry :=
  match trRegister E fuel trEmpty "any" anySchema [] false with
  | .ok tr => tr
  | .error e => e.2

/-- Standard instantiation of the collaborators: a resolver that knows no
names and a parser that returns every expression unchanged (both legitimate
behaviors of the real collaborators). -/
def E0 : Externals :=
  { localLookup := fun _ => Option.none, parseExpr := fun s => .str s }

/-- The type-registry state an `Except` result ends in: the payload of a
success, the carried state of a failure. -/
def outReg :
    Except (String × TypeRegistry) (List (String × PyVal) × TypeRegistry) →
    TypeRegistry
  | .ok s => s.2
  | .error e => e.2

/-- The type-registry state a single normalization step ends in. -/
def stepReg :
    Except (String × TypeRegistry) (PyVal × TypeRegistry × Option String) →
    TypeRegistry
  | .ok s => s.2.1
  | .error e => e.2

def exceptIsOk {ε α : Type} : Except ε α → Bool
  | .ok _ => true
  | .error _ => false

/-- The spec's notion of a normalized schema field (spec-side definition, to
be compared with what the registration loop stores): behavior keys hold a
canonical name (a string, never a callable), non-reserved branch keys hold a
fully resolved sub-schema (a mapping, never an unresolved string), and other
reserved keys are unconstrained. -/
def normalizedField (k : String) (v : PyVal) : Bool :=
  if k ∈ functionKeysList then v.isStr
  else if k ∈ typeSchemaKeys then true
  else v.isDict

/-- The spec's notion of a fully normalized stored schema: a mapping whose
every field is normalized. -/
def normalizedSchema : PyVal → Bool
  | .dict entries => entries.all (fun kv => normalizedField kv.1 kv.2)
  | _ => false

/-! ## Helper lemmas about dict operations -/

theorem lookupKey_dictSetList_self (l : List (String × PyVal)) (k : String) (v : PyVal) :
    lookupKey (dictSetList l k v) k = some v := by
  induction l with
  | nil => simp [dictSetList, lookupKey]
  | cons kv rest ih =>
      obtain ⟨k', v'⟩ := kv
      by_cases h : k' = k <;> simp [dictSetList, lookupKey, h, ih]

theorem lookupKey_dictSetList_other (l : List (String × PyVal)) (k k' : String) (v : PyVal)
    (h : k' ≠ k) : lookupKey (dictSetList l k v) k' = lookupKey l k' := by
  have h' : k ≠ k' := Ne.symm h
  induction l with
  | nil => simp [dictSetList, lookupKey, h']
  | cons kv rest ih =>
      obtain ⟨k'', v''⟩ := kv
      by_cases h2 : k'' = k
      · subst h2
        simp [dictSetList, lookupKey, h']
      · simp only [dictSetList, if_neg h2]
        by_cases h3 : k'' = k' <;> simp [lookupKey, h3, ih]

theorem dictSetList_collapse (l : List (String × PyVal)) (k : String) (x y : PyVal) :
    dictSetList (dictSetList l k x) k y = dictSetList l k y := by
  induction l with
  | nil => simp [dictSetList]
  | cons kv rest ih =>
      obtain ⟨k', v'⟩ := kv
      by_cases h : k' = k <;> simp [dictSetList, h, ih]

theorem lookupKey_mem {l : List (String × PyVal)} {k : String} {v : PyVal}
    (h : lookupKey l k = some v) : (k, v) ∈ l := by
  induction l with
  | nil => simp [lookupKey] at h
  | cons kv rest ih =>
      obtain ⟨k', v'⟩ := kv
      by_cases h2 : k' = k
      · subst h2
        simp [lookupKey] at h
        simp [h]
      · simp [lookupKey, h2] at h
        exact List.mem_cons_of_mem _ (ih h)

theorem mem_dictSetList {l : List (String × PyVal)} {k : String} {v : PyVal}
    {kv : String × PyVal} (h : kv ∈ dictSetList l k v) : kv ∈ l ∨ kv = (k, v) := by
  induction l with
  | nil => simp [dictSetList] at h; simp [h]
  | cons kv' rest ih =>
      obtain ⟨k', v'⟩ := kv'
      by_cases h2 : k' = k
      · subst h2
        simp [dictSetList] at h
        rcases h with h | h
        · right; simp [h]
        · left; simp [h]
      · simp [dictSetList, h2] at h
        rcases h with h | h
        · left; simp [h]
        · rcases ih h with h3 | h3
          · left; exact List.mem_cons_of_mem _ h3
          · right; exact h3

/-! ## C1: conflict on a non-overridable, non-structural, non-concatenable key -/

/-- C1 (counterexample): the claim states that merging two schemas that set
the same non-overridable, non-structural, non-concatenable key to EQUAL
values is a successful no-op.  The source raises unconditionally in that
branch: it never compares the two values, so equal values fail exactly like
differing ones. -/
theorem c1_counterexample :
    typeMerge 5 [("x", PyVal.str "a")] [("x", PyVal.str "a")] [] true
      = .error "cannot merge types at path x" := rfl

/-- C1 (amended): a key present in both schemas whose value is neither
overridable, nor structurally mergeable, nor concatenable makes `type_merge`
fail with a merge conflict naming the path — whether the two values differ or
are equal (equality is never checked). -/
theorem c1_nonmergeable_conflict (fuel : Nat) (dct : List (String × PyVal))
    (k : String) (mv dv : PyVal) (rest : List (String × PyVal))
    (path : List String) (ms : Bool)
    (hd : lookupKey dct k = some dv)
    (h1 : k ∉ overridableSchemaKeys)
    (h2 : k ∉ mergeSchemaKeys)
    (h3 : ¬(dv.isDict = true ∧ mv.isDict = true))
    (h4 : k ∉ concatenateSchemaKeys) :
    typeMerge (fuel + 1) dct ((k, mv) :: rest) path ms
      = .error ("cannot merge types at path " ++ String.intercalate "/" (path ++ [k])) := by
  have hcond : ¬(k ∈ mergeSchemaKeys ∨ (dv.isDict = true ∧ mv.isDict = true)) := by
    intro hor
    rcases hor with hm | hb
    · exact h2 hm
    · exact h3 hb
  rw [typeMerge]
  simp only [hd]
  rw [if_neg h1, if_neg hcond, if_neg h4]

/-- C1 (witness): the conflict theorem applied at a concrete input. -/
theorem c1_nonmergeable_conflict_witness :
    typeMerge 7 [("y", PyVal.int 1)] [("y", PyVal.int 2)] [] true
      = .error "cannot merge types at path y" :=
  c1_nonmergeable_conflict 6 [("y", PyVal.int 1)] "y" (PyVal.int 2) (PyVal.int 1)
    [] [] true rfl (by decide) (by decide) (by decide) (by decide)

/-! ## C4: merge_supers is only honoured at the top level -/

/-- C4 (counterexample): the claim states that `type_merge` with
`merge_supers=false` never extends a `_super` list of `dest` at any depth.
One level down the flag has reverted to its default and the nested `_super`
list IS extended. -/
theorem c4_counterexample :
    typeMerge 5 [("a", PyVal.dict [("_super", PyVal.list [PyVal.str "x"])])]
      [("a", PyVal.dict [("_super", PyVal.list [PyVal.str "y"])])] [] false
      = .ok [("a", PyVal.dict [("_super", PyVal.list [PyVal.str "x", PyVal.str "y"])])] := rfl

/-- C4 (amended): with `merge_supers=false` a top-level `_super` list of
`dest` is left unchanged — the incoming list is not concatenated and the
merge succeeds — but the flag is not forwarded to recursive calls, so
`_super` lists nested one or more levels down are still extended. -/
theorem typeMerge_nil (fuel : Nat) (dct : List (String × PyVal))
    (path : List String) (ms : Bool) :
    typeMerge fuel dct [] path ms = .ok dct := by
  cases fuel <;> rfl

theorem c4_top_level_supers_suppressed (fuel : Nat) (dct : List (String × PyVal))
    (dl ml : List PyVal) (path : List String)
    (hd : lookupKey dct "_super" = some (.list dl)) :
    typeMerge (fuel + 1) dct [("_super", PyVal.list ml)] path false = .ok dct := by
  have h1 : "_super" ∉ overridableSchemaKeys := by decide
  have h2 : ¬(("_super" : String) ∈ mergeSchemaKeys
      ∨ ((PyVal.list dl).isDict = true ∧ (PyVal.list ml).isDict = true)) := by
    simp [mergeSchemaKeys, PyVal.isDict]
  have h3 : ("_super" : String) ∈ concatenateSchemaKeys := by decide
  have h4 : ¬(("_super" : String) ≠ "_super" ∨ false = true) := by simp
  rw [typeMerge]
  simp only [hd]
  rw [if_neg h1, if_neg h2, if_pos h3, if_neg h4]
  exact typeMerge_nil fuel dct path false

/-- C4 (witness): the suppression theorem applied at a concrete input. -/
theorem c4_top_level_supers_witness :
    typeMerge 7 [("_super", PyVal.list [PyVal.str "x"])]
      [("_super", PyVal.list [PyVal.str "y"])] [] false
      = .ok [("_super", PyVal.list [PyVal.str "x"])] :=
  c4_top_level_supers_suppressed 6 [("_super", PyVal.list [PyVal.str "x"])]
    [PyVal.str "x"] [PyVal.str "y"] [] rfl

/-! ## C7: set/get path round trip -/

theorem getPath_falsy (tree : PyVal) (h : String) (rest : List String)
    (hf : pyFalsy tree = true) : getPath tree (h :: rest) = .ok PyVal.none := by
  cases tree <;> simp_all [getPath, pyFalsy]

theorem getPath_dict_absent (entries : List (String × PyVal)) (h : String)
    (rest : List String) (hf : pyFalsy (.dict entries) = false)
    (hl : lookupKey entries h = Option.none) :
    getPath (.dict entries) (h :: rest) = .ok PyVal.none := by
  simp [getPath, hf, hl]

theorem getPath_dict_some (entries : List (String × PyVal)) (h : String)
    (rest : List String) (v : PyVal) (hf : pyFalsy (.dict entries) = false)
    (hl : lookupKey entries h = some v) :
    getPath (.dict entries) (h :: rest) = getPath v rest := by
  simp [getPath, hf, hl]

/-- The chain of singleton mappings that `set_path` builds along a fresh
path: `chainT [a, b] v = {a: {b: v}}`. -/
def chainT : List String → PyVal → PyVal
  | [], v => v
  | h :: t, v => .dict [(h, chainT t v)]

theorem nodeAt_chainT (pre : List String) (v : PyVal) :
    nodeAt (chainT pre v) pre = some v := by
  induction pre with
  | nil => rfl
  | cons h t ih => simp [chainT, nodeAt, lookupKey, ih]

theorem setNodeAt_chainT (pre : List String) (v w : PyVal) :
    setNodeAt (chainT pre v) pre w = chainT pre w := by
  induction pre with
  | nil => rfl
  | cons h t ih => simp [chainT, setNodeAt, lookupKey, dictSetList, ih]

theorem chainT_append (pre : List String) (h : String) (v : PyVal) :
    chainT (pre ++ [h]) v = chainT pre (.dict [(h, v)]) := by
  induction pre with
  | nil => rfl
  | cons x t ih => simp [chainT, ih]

theorem establishPath_nil (fuel : Nat) (top : PyVal) (cursor : List String) :
    establishPath fuel top cursor [] = .ok (top, cursor) := by
  cases fuel <;> rfl

theorem establishPath_chainT (t : List String) (hd : ∀ s ∈ t, s ≠ "..") :
    ∀ (pre : List String) (fuel : Nat), t.length < fuel →
    establishPath fuel (chainT pre (.dict [])) pre t
      = .ok (chainT (pre ++ t) (.dict []), pre ++ t) := by
  induction t with
  | nil => intro pre fuel _; simp [establishPath_nil]
  | cons h t' ih =>
      intro pre fuel hfuel
      match fuel, hfuel with
      | fuel + 1, hfuel =>
        have hh : h ≠ ".." := hd h (List.mem_cons_self h t')
        rw [establishPath, if_neg hh]
        rw [nodeAt_chainT]
        have hk : hasKey ([] : List (String × PyVal)) h = false := rfl
        simp only [hk, Bool.false_eq_true, if_false]
        have hset : setNodeAt (chainT pre (.dict [])) pre
            (.dict (dictSetList [] h (.dict []))) = chainT (pre ++ [h]) (.dict []) := by
          rw [setNodeAt_chainT, chainT_append]
          rfl
        rw [hset]
        have ih' := ih (fun s hs => hd s (List.mem_cons_of_mem _ hs)) (pre ++ [h]) fuel
          (by simpa using Nat.lt_of_succ_lt_succ hfuel)
        rw [ih']
        simp

theorem getPath_chainT (p : List String) (v : PyVal) :
    getPath (chainT p v) p = .ok v := by
  induction p with
  | nil => rfl
  | cons h t ih =>
      rw [chainT, getPath_dict_some [(h, chainT t v)] h t (chainT t v) rfl
        (by simp [lookupKey])]
      exact ih

/-- C7 (counterexample): the claim quantifies over EVERY path.  For a path
containing a `..` segment the round trip fails: `set_path` resolves `..`
during `establish_path` (writing at the parent), while `get_path` treats
`..` as an ordinary absent key and returns not-found instead of the written
value. -/
theorem c7_counterexample :
    (do
      let t ← setPath 9 (PyVal.dict []) ["a", "..", "b"] (PyVal.int 1)
      getPath t ["a", "..", "b"]) = .ok PyVal.none
    ∧ PyVal.none ≠ PyVal.int 1 :=
  ⟨rfl, fun h => PyVal.noConfusion h⟩

/-- What `set_path` builds from an empty tree along a nonempty dot-free
path: the chain of singleton mappings ending in the value. -/
theorem setPath_chainT (fuel : Nat) (p0 : String) (prest : List String)
    (value : PyVal) (hv : value.isNone = false)
    (hdl : ∀ s ∈ (p0 :: prest).dropLast, s ≠ "..")
    (hlen : (p0 :: prest).dropLast.length < fuel) :
    setPath fuel (PyVal.dict []) (p0 :: prest) value
      = .ok (chainT (p0 :: prest) value) := by
  have hne : (p0 :: prest) ≠ ([] : List String) := by simp
  have hsplit : (p0 :: prest).dropLast ++ [(p0 :: prest).getLast hne] = p0 :: prest :=
    List.dropLast_append_getLast hne
  have hlastD : (p0 :: prest).getLastD "" = (p0 :: prest).getLast hne := by
    rw [List.getLastD_eq_getLast?, List.getLast?_eq_getLast _ hne]
    rfl
  have hest := establishPath_chainT (p0 :: prest).dropLast hdl [] fuel hlen
  rw [show chainT [] (PyVal.dict []) = PyVal.dict [] from rfl] at hest
  simp only [List.nil_append] at hest
  unfold setPath
  rw [if_neg (by simp [hv])]
  show (do
    let td ← establishPath fuel (PyVal.dict []) [] (p0 :: prest).dropLast
    match nodeAt td.1 td.2 with
    | some (.dict entries) =>
        Except.ok (setNodeAt td.1 td.2
          (.dict (dictSetList entries ((p0 :: prest).getLastD "") value)))
    | _ => Except.error "TypeError: item assignment on a non-mapping") = _
  rw [hest]
  show (match nodeAt (chainT ((p0 :: prest).dropLast) (PyVal.dict []))
      ((p0 :: prest).dropLast) with
    | some (.dict entries) =>
        Except.ok (setNodeAt (chainT ((p0 :: prest).dropLast) (PyVal.dict []))
          ((p0 :: prest).dropLast)
          (.dict (dictSetList entries ((p0 :: prest).getLastD "") value)))
    | _ => Except.error "TypeError: item assignment on a non-mapping") = _
  rw [nodeAt_chainT]
  show Except.ok (setNodeAt (chainT ((p0 :: prest).dropLast) (PyVal.dict []))
      ((p0 :: prest).dropLast)
      (.dict (dictSetList [] ((p0 :: prest).getLastD "") value))) = _
  rw [setNodeAt_chainT]
  show Except.ok (chainT ((p0 :: prest).dropLast)
      (.dict [(((p0 :: prest).getLastD ""), value)])) = _
  rw [← chainT_append, hlastD, hsplit]

/-- C7 (amended): the round trip holds for every path free of `..` segments
(with enough fuel for the traversal) and every value: writing `V` at `P` in
an empty tree and reading `P` back returns `V` — including `V = None`, where
`set_path` is a no-op returning `None` and the read then reports not-found,
which is again `None`. -/
theorem c7_roundtrip (fuel : Nat) (path : List String) (value : PyVal)
    (hdots : ∀ s ∈ path, s ≠ "..") (hfuel : path.length ≤ fuel) :
    (do
      let t ← setPath fuel (PyVal.dict []) path value
      getPath t path) = .ok value := by
  by_cases hv : value.isNone = true
  · have hvn : value = PyVal.none := by
      cases value <;> simp [PyVal.isNone] at hv ⊢
    subst hvn
    have hset : setPath fuel (PyVal.dict []) path PyVal.none = .ok PyVal.none := rfl
    rw [hset]
    show getPath PyVal.none path = .ok PyVal.none
    cases path with
    | nil => rfl
    | cons h t => exact getPath_falsy _ _ _ rfl
  · have hv' : value.isNone = false := by
      cases hb : value.isNone
      · rfl
      · exact absurd hb hv
    cases hp : path with
    | nil =>
        have hset : setPath fuel (PyVal.dict []) [] value = .ok value := by
          unfold setPath
          rw [if_neg hv]
        rw [hset]
        rfl
    | cons p0 prest =>
        subst hp
        have hdl : ∀ s ∈ (p0 :: prest).dropLast, s ≠ ".." := fun s hs =>
          hdots s (List.dropLast_sublist _ |>.subset hs)
        have hlen : (p0 :: prest).dropLast.length < fuel := by
          have h1 : (p0 :: prest).dropLast.length = (p0 :: prest).length - 1 :=
            List.length_dropLast _
          have h2 : 1 ≤ (p0 :: prest).length := by simp
          omega
        rw [setPath_chainT fuel p0 prest value hv' hdl hlen]
        show getPath (chainT (p0 :: prest) value) (p0 :: prest) = .ok value
        exact getPath_chainT _ _

/-- C7 (witness): the round trip theorem at a concrete dot-free path. -/
theorem c7_roundtrip_witness :
    (do
      let t ← setPath 5 (PyVal.dict []) ["a", "b"] (PyVal.int 7)
      getPath t ["a", "b"]) = .ok (PyVal.int 7) :=
  c7_roundtrip 5 ["a", "b"] (PyVal.int 7) (by decide) (by decide)

/-! ## C8: parent traversal in establish_path -/

/-- C8: a `..` segment at the traversal root raises, and a `..` segment with
a nonempty cursor continues as an establishment of `cursor[:-1]` from the
top with a fresh cursor — i.e. it moves the traversal to the parent of the
current cursor position relative to `top`. -/
theorem c8_parent_traversal :
    (∀ (fuel : Nat) (top : PyVal) (rest : List String),
      establishPath (fuel + 1) top [] (".." :: rest)
        = .error "trying to travel above the top of the tree")
    ∧ (∀ (fuel : Nat) (top : PyVal) (cursor rest : List String), cursor ≠ [] →
      establishPath (fuel + 1) top cursor (".." :: rest)
        = establishPath fuel top [] cursor.dropLast) := by
  constructor
  · intro fuel top rest
    rw [establishPath]
    simp
  · intro fuel top cursor rest hc
    rw [establishPath]
    simp [hc]

/-- C8 (witness): after establishing `['a','b']` in an empty tree, a `..`
step from cursor `('a','b')` reaches the node at `['a']`; a `..` step at the
root fails. -/
theorem c8_parent_traversal_witness :
    establishPath 5 (PyVal.dict []) [] ["a", "b"]
      = .ok (PyVal.dict [("a", PyVal.dict [("b", PyVal.dict [])])], ["a", "b"])
    ∧ establishPath 5 (PyVal.dict [("a", PyVal.dict [("b", PyVal.dict [])])])
        ["a", "b"] [".."]
      = establishPath 4 (PyVal.dict [("a", PyVal.dict [("b", PyVal.dict [])])]) [] ["a"]
    ∧ establishPath 4 (PyVal.dict [("a", PyVal.dict [("b", PyVal.dict [])])]) [] ["a"]
      = .ok (PyVal.dict [("a", PyVal.dict [("b", PyVal.dict [])])], ["a"])
    ∧ nodeAt (PyVal.dict [("a", PyVal.dict [("b", PyVal.dict [])])]) ["a"]
      = some (PyVal.dict [("b", PyVal.dict [])])
    ∧ establishPath 5 (PyVal.dict []) [] [".."]
      = .error "trying to travel above the top of the tree" :=
  ⟨rfl,
   c8_parent_traversal.2 4 (PyVal.dict [("a", PyVal.dict [("b", PyVal.dict [])])])
     ["a", "b"] [] (by simp),
   rfl, rfl,
   c8_parent_traversal.1 4 (PyVal.dict []) []⟩

/-! ## C9: totality of get_path -/

/-- Trees whose nodes are mappings all the way down, except that leaves may
be any falsy value (those make `get_path` return not-found rather than
raise).  Fuel bounds the nesting depth. -/
def noTruthyNonDict : Nat → PyVal → Bool
  | 0, _ => false
  | fuel + 1, .dict entries => entries.all (fun kv => noTruthyNonDict fuel kv.2)
  | _ + 1, v => pyFalsy v

/-- C9 (counterexample): the claim states `get_path` is total and never
raises, returning not-found when a node is not a mapping.  Following a
segment into a truthy non-mapping (an int leaf) raises TypeError instead:
`head not in tree` is a membership test that ints do not support. -/
theorem c9_counterexample :
    getPath (PyVal.dict [("a", PyVal.int 5)]) ["a", "b"]
      = .error "TypeError: argument is not a container" := rfl

/-- C9 (amended): `get_path` returns the tree itself on the empty path,
returns the explicit not-found value the instant the current node is falsy
or a segment is absent from a mapping node, and never raises on trees whose
non-mapping nodes are all falsy; only a truthy non-mapping node reached with
a remaining segment raises TypeError. -/
theorem c9_get_path_total :
    (∀ (fuel : Nat) (tree : PyVal) (path : List String),
      noTruthyNonDict fuel tree = true → ∃ v, getPath tree path = .ok v)
    ∧ (∀ tree : PyVal, getPath tree [] = .ok tree)
    ∧ (∀ (tree : PyVal) (h : String) (rest : List String),
        pyFalsy tree = true → getPath tree (h :: rest) = .ok PyVal.none)
    ∧ (∀ (entries : List (String × PyVal)) (h : String) (rest : List String),
        pyFalsy (.dict entries) = false → lookupKey entries h = Option.none →
        getPath (.dict entries) (h :: rest) = .ok PyVal.none) := by
  refine ⟨?_, fun tree => rfl, ?_, ?_⟩
  · intro fuel
    induction fuel with
    | zero => intro tree path h; simp [noTruthyNonDict] at h
    | succ fuel ih =>
        intro tree path ht
        cases path with
        | nil => exact ⟨tree, rfl⟩
        | cons h rest =>
            by_cases hf : pyFalsy tree = true
            · exact ⟨PyVal.none, getPath_falsy tree h rest hf⟩
            · have hf' : pyFalsy tree = false := by
                cases hb : pyFalsy tree
                · rfl
                · exact absurd hb hf
              cases tree with
              | dict entries =>
                  cases hl : lookupKey entries h with
                  | none => exact ⟨PyVal.none, getPath_dict_absent entries h rest hf' hl⟩
                  | some v =>
                      have hv : noTruthyNonDict fuel v = true := by
                        have ht' : entries.all (fun kv => noTruthyNonDict fuel kv.2) = true := ht
                        rw [List.all_eq_true] at ht'
                        exact ht' (h, v) (lookupKey_mem hl)
                      obtain ⟨w, hw⟩ := ih v rest hv
                      exact ⟨w, by rw [getPath_dict_some entries h rest v hf' hl]; exact hw⟩
              | none => exact absurd rfl hf
              | bool b => exact absurd ht hf
              | int n => exact absurd ht hf
              | str s => exact absurd ht hf
              | list xs => exact absurd ht hf
              | func n ps => exact absurd ht hf
  · intro tree h rest hf
    exact getPath_falsy tree h rest hf
  · intro entries h rest hf hl
    exact getPath_dict_absent entries h rest hf hl

/-- C9 (witness): the totality theorem applied at a concrete mapping tree
and a path that dead-ends. -/
theorem c9_get_path_total_witness :
    ∃ v, getPath (PyVal.dict [("a", PyVal.dict [])]) ["a", "x", "y"] = .ok v :=
  c9_get_path_total.1 3 (PyVal.dict [("a", PyVal.dict [])]) ["a", "x", "y"] rfl

/-! ## C2: Registry.register semantics -/

theorem registerKeysLoop_nil (fuel : Nat) (primary : String) (item : PyVal)
    (force : Bool) (reg : List (String × PyVal)) :
    registerKeysLoop fuel primary item force reg [] = .ok reg := rfl

/-- C2 (counterexample): the claim states that for EVERY registry, key and
item, registering with `force=true` stores the new item unconditionally.  A
callable whose parameter names violate the registry's signature contract
fails the assert before the force flag is even consulted, and nothing is
stored. -/
theorem c2_counterexample :
    registryRegister 5 (Registry.mk [] [] ["current"]) "f"
      (PyVal.func "f" ["bogus"]) [] true
      = .error ("Function keys are not all in the function_keys",
          Registry.mk [] [] ["current"]) := rfl

/-- C2 (amended): for an item passing the signature-contract check,
registering under an existing key with an identical (`==`-equal) item and
`force=false` succeeds without touching the stored mapping; a differing item
under an existing key with `force=false` fails with the registration
conflict; and `force=true` stores the new item regardless of any existing
entry.  A callable item violating the registry's parameter-name contract
fails even with `force=true`. -/
theorem c2_register_semantics (fuel : Nat) (r : Registry) (key : String)
    (item : PyVal) (hsig : sigOk r.functionKeys item = true) :
    (∀ old, lookupKey r.registry key = some old → pyEq fuel item old = true →
        registryRegister fuel r key item [] false
          = .ok { registry := r.registry,
                  mainKeys := insertIfAbsent r.mainKeys key,
                  functionKeys := r.functionKeys })
    ∧ (∀ old, lookupKey r.registry key = some old → pyEq fuel item old = false →
        registryRegister fuel r key item [] false
          = .error ("registry already contains an entry for " ++ key, r))
    ∧ registryRegister fuel r key item [] true
        = .ok { registry := dictSetList r.registry key item,
                mainKeys := insertIfAbsent r.mainKeys key,
                functionKeys := r.functionKeys } := by
  have hs : (!sigOk r.functionKeys item) = false := by rw [hsig]; rfl
  refine ⟨?_, ?_, ?_⟩
  · intro old hold heq
    unfold registryRegister
    rw [registerKeysLoop]
    simp only [hs, Bool.false_eq_true, if_false, hold, heq, if_true,
      registerKeysLoop_nil]
  · intro old hold heq
    unfold registryRegister
    rw [registerKeysLoop]
    simp only [hs, Bool.false_eq_true, if_false, hold, heq, if_true,
      registerKeysLoop_nil]
  · unfold registryRegister
    rw [registerKeysLoop]
    cases hold : lookupKey r.registry key with
    | none =>
        simp only [hs, Bool.false_eq_true, if_false, hold, registerKeysLoop_nil]
    | some old =>
        simp only [hs, Bool.false_eq_true, if_false, hold, if_true,
          registerKeysLoop_nil]

/-- C2 (witness): the three register behaviors at a concrete registry. -/
theorem c2_register_semantics_witness :
    registryRegister 5 (Registry.mk [("k", PyVal.int 1)] ["k"] []) "k"
        (PyVal.int 1) [] false
      = .ok (Registry.mk [("k", PyVal.int 1)] ["k"] [])
    ∧ registryRegister 5 (Registry.mk [("k", PyVal.int 1)] ["k"] []) "k"
        (PyVal.int 2) [] false
      = .error ("registry already contains an entry for k",
          Registry.mk [("k", PyVal.int 1)] ["k"] [])
    ∧ registryRegister 5 (Registry.mk [("k", PyVal.int 1)] ["k"] []) "k"
        (PyVal.int 2) [] true
      = .ok (Registry.mk [("k", PyVal.int 2)] ["k"] []) :=
  ⟨(c2_register_semantics 5 (Registry.mk [("k", PyVal.int 1)] ["k"] []) "k"
      (PyVal.int 1) rfl).1 (PyVal.int 1) rfl rfl,
   (c2_register_semantics 5 (Registry.mk [("k", PyVal.int 1)] ["k"] []) "k"
      (PyVal.int 2) rfl).2.1 (PyVal.int 1) rfl rfl,
   (c2_register_semantics 5 (Registry.mk [("k", PyVal.int 1)] ["k"] []) "k"
      (PyVal.int 2) rfl).2.2⟩

/-! ## C6 and C10: the generic apply engine -/

/-- A concrete core with an `int` leaf type bound to a summing apply, the
instantiation named by the spec's dispatch example. -/
def coreInt : Core :=
  { access := fun v =>
      match v with
      | .str "int" => .dict [("_type", .str "int")]
      | _ => .none
    check := fun _ v =>
      match v with
      | .int _ => true
      | _ => false
    apply := fun _ a b =>
      match a, b with
      | .int x, .int y => .int (x + y)
      | _, _ => b
    default := fun _ => .int 0 }

def keysNodup : List (String × PyVal) → Bool
  | [] => true
  | (k, _) :: rest => !(rest.any (fun kv => kv.1 == k)) && keysNodup rest

theorem applyEntriesGo_nil
    (rec : PyVal → PyVal → PyVal → Except String (PyVal × PyVal))
    (core : Core) (leafT cur b : PyVal) :
    applyEntriesGo rec core leafT cur [] b = .ok (cur, b) := rfl

/-- The one-step unfolding of the update loop, usable for rewriting. -/
theorem applyEntriesGo_cons
    (rec : PyVal → PyVal → PyVal → Except String (PyVal × PyVal))
    (core : Core) (leafT cur : PyVal) (key : String) (branch : PyVal)
    (rest : List (String × PyVal)) (b : PyVal) :
    applyEntriesGo rec core leafT cur ((key, branch) :: rest) b =
      (if key = "_add" then
        match cur, branch with
        | .dict ce, .dict badd =>
            applyEntriesGo rec core leafT
              (.dict (badd.foldl (fun acc kv => dictSetList acc kv.1 kv.2) ce)) rest b
        | .dict _, _ => .error "TypeError: update from a non-mapping"
        | _, _ => .error "AttributeError: update on a non-mapping"
      else if key = "_remove" then
        match removePath cur branch with
        | .ok cur' => applyEntriesGo rec core leafT cur' rest b
        | .error e => .error e
      else if core.check leafT branch then
        match cur with
        | .dict ce =>
            applyEntriesGo rec core leafT
              (.dict (dictSetList ce key (core.apply leafT (dictGetD ce key) branch))) rest b
        | _ => .error "AttributeError: get on a non-mapping"
      else
        match cur with
        | .dict ce =>
            match rec (dictGetD ce key) branch b with
            | .ok rb =>
                applyEntriesGo rec core leafT (.dict (dictSetList ce key rb.1)) rest rb.2
            | .error e => .error e
        | _ => .error "AttributeError: get on a non-mapping") := rfl

theorem applyEntriesGo_all_check
    (rec : PyVal → PyVal → PyVal → Except String (PyVal × PyVal))
    (core : Core) (leafT : PyVal) :
    ∀ (entries ce : List (String × PyVal)) (b : PyVal),
    keysNodup entries = true →
    (∀ kv ∈ entries, kv.1 ≠ "_add" ∧ kv.1 ≠ "_remove"
        ∧ core.check leafT kv.2 = true) →
    ∃ res, applyEntriesGo rec core leafT (.dict ce) entries b = .ok (.dict res, b)
      ∧ (∀ kv ∈ entries, lookupKey res kv.1
          = some (core.apply leafT (dictGetD ce kv.1) kv.2))
      ∧ (∀ k, (∀ kv ∈ entries, kv.1 ≠ k) → lookupKey res k = lookupKey ce k) := by
  intro entries
  induction entries with
  | nil =>
      intro ce b _ _
      exact ⟨ce, rfl, by simp, fun k _ => rfl⟩
  | cons kv0 rest ih =>
      intro ce b hnd hprops
      obtain ⟨k, v⟩ := kv0
      obtain ⟨hka, hkr, hkc⟩ := hprops (k, v) (List.mem_cons_self _ _)
      rw [keysNodup, Bool.and_eq_true] at hnd
      have hnd' : keysNodup rest = true := hnd.2
      have hrestk : ∀ kv ∈ rest, kv.1 ≠ k := by
        intro kv hkv he
        have h1 := hnd.1
        rw [Bool.not_eq_true', List.any_eq_false] at h1
        exact absurd (by rw [he]; exact beq_self_eq_true k) (h1 kv hkv)
      obtain ⟨res, hres, hmem, hpres⟩ := ih (dictSetList ce k (core.apply leafT (dictGetD ce k) v)) b hnd'
        (fun kv hkv => hprops kv (List.mem_cons_of_mem _ hkv))
      refine ⟨res, ?_, ?_, ?_⟩
      · rw [applyEntriesGo_cons, if_neg hka, if_neg hkr, hkc]
        simp only [if_true]
        exact hres
      · intro kv hkv
        rcases List.mem_cons.mp hkv with he | hm
        · subst he
          rw [hpres k hrestk, lookupKey_dictSetList_self]
        · rw [hmem kv hm]
          have hne : kv.1 ≠ k := hrestk kv hm
          rw [show dictGetD (dictSetList ce k (core.apply leafT (dictGetD ce k) v)) kv.1
              = dictGetD ce kv.1 from by
            unfold dictGetD
            rw [lookupKey_dictSetList_other _ _ _ _ hne]]
      · intro k' hk'
        have hkk' : k ≠ k' := hk' (k, v) (List.mem_cons_self _ _)
        rw [hpres k' (fun kv hkv => hk' kv (List.mem_cons_of_mem _ hkv)),
          lookupKey_dictSetList_other _ _ _ _ (Ne.symm hkk')]

/-- C6: in `apply_tree` over a mapping-shaped update, every entry other than
`_add`/`_remove` whose value satisfies the governing leaf type's check
predicate is combined in a single step by the leaf type's apply function
(first conjunct, for updates made of such entries with distinct keys:
the result binds each key to one `core.apply` of the old value and the
branch, never a recursion), and an entry failing the check is recursed into
with the same (already mutated) bindings dict (second conjunct). -/
theorem c6_atomic_dispatch :
    (∀ (core : Core) (fuel : Nat) (be ce entries : List (String × PyVal))
        (leafName : PyVal),
      lookupKey be "leaf" = some leafName →
      keysNodup entries = true →
      (∀ kv ∈ entries, kv.1 ≠ "_add" ∧ kv.1 ≠ "_remove"
          ∧ core.check (core.access leafName) kv.2 = true) →
      ∃ res, applyTree (fuel + 1) core (.dict ce) (.dict entries) (.dict be)
          = .ok (.dict res, .dict (dictSetList be "leaf" (core.access leafName)))
        ∧ ∀ kv ∈ entries, lookupKey res kv.1
            = some (core.apply (core.access leafName) (dictGetD ce kv.1) kv.2))
    ∧ (∀ (core : Core) (fuel : Nat) (be ce : List (String × PyVal))
        (leafName v : PyVal) (k : String),
      lookupKey be "leaf" = some leafName →
      k ≠ "_add" → k ≠ "_remove" →
      core.check (core.access leafName) v = false →
      applyTree (fuel + 1) core (.dict ce) (.dict [(k, v)]) (.dict be)
        = match applyTree fuel core (dictGetD ce k) v
            (.dict (dictSetList be "leaf" (core.access leafName))) with
          | .ok rb => .ok (.dict (dictSetList ce k rb.1), rb.2)
          | .error e => .error e) := by
  have hcur : ∀ ce : List (String × PyVal),
      (if pyFalsy (.dict ce) = true then PyVal.dict [] else .dict ce) = .dict ce := by
    intro ce
    cases ce with
    | nil => rfl
    | cons x xs => rfl
  constructor
  · intro core fuel be ce entries leafName hl hnd hprops
    obtain ⟨res, hres, hmem, _⟩ := applyEntriesGo_all_check (applyTree fuel core)
      core (core.access leafName) entries ce
      (.dict (dictSetList be "leaf" (core.access leafName))) hnd hprops
    refine ⟨res, ?_, hmem⟩
    rw [applyTree]
    simp only [hl, hcur]
    exact hres
  · intro core fuel be ce leafName v k hl hka hkr hkc
    rw [applyTree]
    simp only [hl, hcur]
    rw [applyEntriesGo_cons, if_neg hka, if_neg hkr, hkc]
    simp only [Bool.false_eq_true, if_false]
    cases hrb : applyTree fuel core (dictGetD ce k) v
        (.dict (dictSetList be "leaf" (core.access leafName))) with
    | ok rb => rfl
    | error e => rfl

/-- C6 (witness): the dispatch theorem at the spec's concrete example —
leaf type `int` with a summing apply, `applyTree({x:2}, {x:5})` — together
with the full result `{x:7}`. -/
theorem c6_atomic_dispatch_witness :
    (∃ res, applyTree 2 coreInt (.dict [("x", PyVal.int 2)])
        (.dict [("x", PyVal.int 5)]) (.dict [("leaf", PyVal.str "int")])
        = .ok (.dict res,
            .dict (dictSetList [("leaf", PyVal.str "int")] "leaf"
              (coreInt.access (PyVal.str "int"))))
      ∧ ∀ kv ∈ [("x", PyVal.int 5)], lookupKey res kv.1
          = some (coreInt.apply (coreInt.access (PyVal.str "int"))
              (dictGetD [("x", PyVal.int 2)] kv.1) kv.2))
    ∧ applyTree 2 coreInt (.dict [("x", PyVal.int 2)])
        (.dict [("x", PyVal.int 5)]) (.dict [("leaf", PyVal.str "int")])
      = .ok (.dict [("x", PyVal.int 7)],
          .dict [("leaf", PyVal.dict [("_type", PyVal.str "int")])]) :=
  ⟨c6_atomic_dispatch.1 coreInt 1 [("leaf", PyVal.str "int")]
      [("x", PyVal.int 2)] [("x", PyVal.int 5)] (PyVal.str "int")
      rfl rfl (by decide),
   rfl⟩

/-- The bindings returned by a successful `applyEntriesGo` keep the
canonical once-mutated shape: `base` with `'leaf'` bound to some
`core.access` result.  The hypothesis `ihT` is the same fact for the
recursive `apply_tree` one fuel level down. -/
theorem applyEntriesGo_bindings_shape (fuel : Nat) (core : Core)
    (ihT : ∀ (cur upd : PyVal) (be : List (String × PyVal)) (leafName r b2 : PyVal),
      lookupKey be "leaf" = some leafName →
      applyTree fuel core cur upd (.dict be) = .ok (r, b2) →
      ∃ w, b2 = .dict (dictSetList be "leaf" (core.access w))) :
    ∀ (ue : List (String × PyVal)) (leafT cur : PyVal)
      (bass : List (String × PyVal)) (w0 r b2 : PyVal),
    applyEntriesGo (applyTree fuel core) core leafT cur ue
      (.dict (dictSetList bass "leaf" (core.access w0))) = .ok (r, b2) →
    ∃ w, b2 = .dict (dictSetList bass "leaf" (core.access w)) := by
  intro ue
  induction ue with
  | nil =>
      intro leafT cur bass w0 r b2 h
      rw [applyEntriesGo_nil] at h
      injection h with h1
      injection h1 with h2 h3
      exact ⟨w0, h3.symm⟩
  | cons kv rest ih =>
      intro leafT cur bass w0 r b2 h
      obtain ⟨k, branch⟩ := kv
      rw [applyEntriesGo_cons] at h
      by_cases hka : k = "_add"
      · rw [if_pos hka] at h
        cases cur with
        | dict ce =>
            cases branch with
            | dict badd => exact ih leafT _ bass w0 r b2 h
            | none => simp at h
            | bool b => simp at h
            | int n => simp at h
            | str s => simp at h
            | list xs => simp at h
            | func n ps => simp at h
        | none => simp at h
        | bool b => simp at h
        | int n => simp at h
        | str s => simp at h
        | list xs => simp at h
        | func n ps => simp at h
      · rw [if_neg hka] at h
        by_cases hkr : k = "_remove"
        · rw [if_pos hkr] at h
          cases hrm : removePath cur branch with
          | ok cur' =>
              rw [hrm] at h
              exact ih leafT cur' bass w0 r b2 h
          | error e => rw [hrm] at h; simp at h
        · rw [if_neg hkr] at h
          by_cases hck : core.check leafT branch = true
          · rw [hck] at h
            simp only [if_true] at h
            cases cur with
            | dict ce => exact ih leafT _ bass w0 r b2 h
            | none => simp at h
            | bool b => simp at h
            | int n => simp at h
            | str s => simp at h
            | list xs => simp at h
            | func n ps => simp at h
          · rw [Bool.not_eq_true] at hck
            rw [hck] at h
            simp only [Bool.false_eq_true, if_false] at h
            cases cur with
            | dict ce =>
                have h' : (match applyTree fuel core (dictGetD ce k) branch
                    (.dict (dictSetList bass "leaf" (core.access w0))) with
                  | Except.ok rb =>
                      applyEntriesGo (applyTree fuel core) core leafT
                        (.dict (dictSetList ce k rb.1)) rest rb.2
                  | Except.error e => Except.error e) = Except.ok (r, b2) := h
                cases hrb : applyTree fuel core (dictGetD ce k) branch
                    (.dict (dictSetList bass "leaf" (core.access w0))) with
                | ok rb =>
                    rw [hrb] at h'
                    have h'' : applyEntriesGo (applyTree fuel core) core leafT
                        (.dict (dictSetList ce k rb.1)) rest rb.2
                        = Except.ok (r, b2) := h'
                    obtain ⟨w', hw'⟩ := ihT (dictGetD ce k) branch
                      (dictSetList bass "leaf" (core.access w0)) (core.access w0)
                      rb.1 rb.2 (lookupKey_dictSetList_self _ _ _)
                      (by rw [hrb])
                    rw [dictSetList_collapse] at hw'
                    rw [hw'] at h''
                    exact ih leafT _ bass w' r b2 h''
                | error e =>
                    rw [hrb] at h'
                    simp at h'
            | none => simp at h
            | bool b => simp at h
            | int n => simp at h
            | str s => simp at h
            | list xs => simp at h
            | func n ps => simp at h

/-- C10: `apply_tree` mutates the caller's bindings at key `'leaf'` on every
call it completes.  First conjunct: whatever the update shape, the returned
bindings are the caller's dict with `'leaf'` overwritten by a `core.access`
resolution result (nested recursion may re-resolve, hence the existential).
Second conjunct: when the update is not a mapping there is no recursion and
`'leaf'` holds exactly the resolution of the leaf value that was passed in. -/
theorem c10_bindings_mutation :
    (∀ (fuel : Nat) (core : Core) (cur upd : PyVal)
        (be : List (String × PyVal)) (leafName r b2 : PyVal),
      lookupKey be "leaf" = some leafName →
      applyTree fuel core cur upd (.dict be) = .ok (r, b2) →
      ∃ w, b2 = .dict (dictSetList be "leaf" (core.access w)))
    ∧ (∀ (fuel : Nat) (core : Core) (cur upd : PyVal)
        (be : List (String × PyVal)) (leafName r b2 : PyVal),
      lookupKey be "leaf" = some leafName →
      upd.isDict = false →
      applyTree (fuel + 1) core cur upd (.dict be) = .ok (r, b2) →
      b2 = .dict (dictSetList be "leaf" (core.access leafName))) := by
  have main : ∀ (fuel : Nat) (core : Core) (cur upd : PyVal)
      (be : List (String × PyVal)) (leafName r b2 : PyVal),
      lookupKey be "leaf" = some leafName →
      applyTree fuel core cur upd (.dict be) = .ok (r, b2) →
      ∃ w, b2 = .dict (dictSetList be "leaf" (core.access w)) := by
    intro fuel
    induction fuel with
    | zero =>
        intro core cur upd be leafName r b2 _ h
        rw [applyTree] at h
        simp at h
    | succ fuel ih =>
        intro core cur upd be leafName r b2 hl h
        rw [applyTree] at h
        simp only [hl] at h
        cases upd with
        | dict ue =>
            exact applyEntriesGo_bindings_shape fuel core
              (fun cur upd be ln r b2 => ih core cur upd be ln r b2) ue
              (core.access leafName) _ be leafName r b2 h
        | none => exact ⟨leafName, (by injection h with h1; injection h1 with _ h2; exact h2.symm)⟩
        | bool b => exact ⟨leafName, (by injection h with h1; injection h1 with _ h2; exact h2.symm)⟩
        | int n => exact ⟨leafName, (by injection h with h1; injection h1 with _ h2; exact h2.symm)⟩
        | str s => exact ⟨leafName, (by injection h with h1; injection h1 with _ h2; exact h2.symm)⟩
        | list xs => exact ⟨leafName, (by injection h with h1; injection h1 with _ h2; exact h2.symm)⟩
        | func n ps => exact ⟨leafName, (by injection h with h1; injection h1 with _ h2; exact h2.symm)⟩
  refine ⟨main, ?_⟩
  intro fuel core cur upd be leafName r b2 hl hnd h
  rw [applyTree] at h
  simp only [hl] at h
  cases upd with
  | dict ue => simp [PyVal.isDict] at hnd
  | none => injection h with h1; injection h1 with _ h2; exact h2.symm
  | bool b => injection h with h1; injection h1 with _ h2; exact h2.symm
  | int n => injection h with h1; injection h1 with _ h2; exact h2.symm
  | str s => injection h with h1; injection h1 with _ h2; exact h2.symm
  | list xs => injection h with h1; injection h1 with _ h2; exact h2.symm
  | func n ps => injection h with h1; injection h1 with _ h2; exact h2.symm

/-- C10 (witness): the mutation theorem at a concrete core and non-mapping
update: the returned bindings hold the resolved `int` schema, not the name
`'int'` that was passed in. -/
theorem c10_bindings_mutation_witness :
    PyVal.dict [("leaf", PyVal.dict [("_type", PyVal.str "int")])]
      = PyVal.dict (dictSetList [("leaf", PyVal.str "int")] "leaf"
          (coreInt.access (PyVal.str "int")))
    ∧ applyTree 2 coreInt (PyVal.int 1) (PyVal.int 5)
        (PyVal.dict [("leaf", PyVal.str "int")])
      = .ok (PyVal.int 6, PyVal.dict [("leaf", PyVal.dict [("_type", PyVal.str "int")])]) :=
  ⟨c10_bindings_mutation.2 1 coreInt (PyVal.int 1) (PyVal.int 5)
      [("leaf", PyVal.str "int")] (PyVal.str "int") (PyVal.int 6)
      (PyVal.dict [("leaf", PyVal.dict [("_type", PyVal.str "int")])])
      rfl rfl rfl,
   rfl⟩

/-! ## C3: what a failed type registration leaves behind -/

theorem setSub_registry (tr : TypeRegistry) (sel : SubReg) (r : Registry) :
    (setSub tr sel r).registry = tr.registry := by
  cases sel <;> rfl

theorem superName_mapM_error (key : String) (tr : TypeRegistry) :
    ∀ (l : List PyVal) (e : String × TypeRegistry),
    l.mapM (superName key tr) = .error e → e.2 = tr := by
  intro l
  induction l with
  | nil =>
      intro e h
      rw [List.mapM_nil] at h
      exact Except.noConfusion h
  | cons x xs ih =>
      intro e h
      rw [List.mapM_cons] at h
      cases x
      case str s =>
          cases hxs : xs.mapM (superName key tr) with
          | error e2 =>
              rw [hxs] at h
              have h2 : (Except.error e2 :
                  Except (String × TypeRegistry) (List String)) = Except.error e := h
              injection h2 with h3
              exact h3 ▸ ih e2 hxs
          | ok ys =>
              rw [hxs] at h
              exact Except.noConfusion
                (show (Except.ok (s :: ys) :
                    Except (String × TypeRegistry) (List String)) = Except.error e from h)
      all_goals
        have h2 : (Except.error (("super for " ++ key ++ " must be a string"), tr) :
            Except (String × TypeRegistry) (List String)) = Except.error e := h
      all_goals injection h2 with h3
      all_goals exact h3 ▸ rfl

theorem supersOf_error (tr : TypeRegistry) (key : String)
    (entries : List (String × PyVal)) (e : String × TypeRegistry)
    (h : supersOf tr key entries = .error e) : e.2 = tr := by
  unfold supersOf at h
  split at h
  · exact Except.noConfusion h
  · split at h
    · exact Except.noConfusion h
    · rename_i e2 heq
      injection h with h1
      exact h1 ▸ superName_mapM_error key tr _ e2 heq
  · exact Except.noConfusion h
  all_goals injection h with h1
  all_goals exact h1 ▸ rfl

theorem superStep_error (fuel : Nat) (tr1 : TypeRegistry)
    (acc : List (String × PyVal)) (su : String) (e : String × TypeRegistry)
    (h : superStep fuel tr1 acc su = .error e) : e.2 = tr1 := by
  unfold superStep at h
  split at h
  · split at h
    · exact Except.noConfusion h
    · injection h with h1
      exact h1 ▸ rfl
  · injection h with h1
    exact h1 ▸ rfl

theorem superMergeFold_error (fuel : Nat) (tr1 : TypeRegistry) :
    ∀ (supList : List String) (entries : List (String × PyVal))
    (e : String × TypeRegistry),
    superMergeFold fuel tr1 supList entries = .error e → e.2 = tr1 := by
  intro supList
  induction supList with
  | nil =>
      intro entries e h
      exact Except.noConfusion h
  | cons su rest ih =>
      intro entries e h
      have h' : (superStep fuel tr1 entries su >>= fun acc =>
          superMergeFold fuel tr1 rest acc) = .error e := h
      cases hs : superStep fuel tr1 entries su with
      | error e2 =>
          rw [hs] at h'
          have h2 : (Except.error e2 :
              Except (String × TypeRegistry) (List (String × PyVal)))
              = Except.error e := h'
          injection h2 with h3
          exact h3 ▸ superStep_error fuel tr1 entries su e2 hs
      | ok acc =>
          rw [hs] at h'
          exact ih acc e h'

theorem normalizeStep_registry (E : Externals) (fuel : Nat) (tr : TypeRegistry)
    (mk : Option String) (subkey : String) (sub : PyVal) :
    (stepReg (normalizeStep E fuel tr mk subkey sub)).registry = tr.registry := by
  unfold normalizeStep
  repeat' split
  all_goals first
    | rfl
    | exact setSub_registry _ _ _

theorem normalizeEntries_cons (E : Externals) (fuel : Nat) (tr : TypeRegistry)
    (mk : Option String) (subkey : String) (sub : PyVal)
    (rest : List (String × PyVal)) :
    normalizeEntries E fuel tr mk ((subkey, sub) :: rest)
      = (match normalizeStep E fuel tr mk subkey sub with
         | .error e => .error e
         | .ok step =>
             match normalizeEntries E fuel step.2.1 step.2.2 rest with
             | .error e => .error e
             | .ok tail => .ok ((subkey, step.1) :: tail.1, tail.2)) := rfl

theorem normalizeEntries_registry (E : Externals) (fuel : Nat) :
    ∀ (entries : List (String × PyVal)) (tr : TypeRegistry) (mk : Option String)
    (res : Except (String × TypeRegistry) (List (String × PyVal) × TypeRegistry)),
    normalizeEntries E fuel tr mk entries = res →
    (outReg res).registry = tr.registry := by
  intro entries
  induction entries with
  | nil =>
      intro tr mk res h
      rw [← h]
      rfl
  | cons kv rest ih =>
      intro tr mk res h
      obtain ⟨subkey, sub⟩ := kv
      rw [normalizeEntries_cons] at h
      split at h
      · rename_i e heq
        have hs := normalizeStep_registry E fuel tr mk subkey sub
        rw [heq] at hs
        rw [← h]
        exact hs
      · rename_i step heq
        have hs := normalizeStep_registry E fuel tr mk subkey sub
        rw [heq] at hs
        split at h
        · rename_i e2 heq2
          have ht := ih step.2.1 step.2.2 _ heq2
          rw [← h]
          exact ht.trans hs
        · rename_i tail heq2
          have ht := ih step.2.1 step.2.2 _ heq2
          rw [← h]
          exact ht.trans hs

theorem registerKeysLoop_cons (fuel : Nat) (primary : String) (item : PyVal)
    (force : Bool) (reg : List (String × PyVal)) (rk : String)
    (rest : List String) :
    registerKeysLoop fuel primary item force reg (rk :: rest)
      = (match lookupKey reg rk with
         | some old =>
             if force then
               registerKeysLoop fuel primary item force (dictSetList reg rk item) rest
             else if pyEq fuel item old then
               registerKeysLoop fuel primary item force reg rest
             else
               match lookupKey reg primary with
               | some _ => .error ("registry already contains an entry for " ++ rk, reg)
               | Option.none => .error ("KeyError", reg)
         | Option.none =>
             registerKeysLoop fuel primary item force (dictSetList reg rk item) rest) := rfl

theorem registerKeysLoop_single_error (fuel : Nat) (p : String) (item : PyVal)
    (force : Bool) (reg : List (String × PyVal)) (k : String)
    (e : String × List (String × PyVal))
    (h : registerKeysLoop fuel p item force reg [k] = .error e) : e.2 = reg := by
  rw [registerKeysLoop_cons] at h
  split at h
  · split at h
    · rw [registerKeysLoop_nil] at h
      exact Except.noConfusion h
    · split at h
      · rw [registerKeysLoop_nil] at h
        exact Except.noConfusion h
      · split at h
        · injection h with h1
          exact h1 ▸ rfl
        · injection h with h1
          exact h1 ▸ rfl
  · rw [registerKeysLoop_nil] at h
    exact Except.noConfusion h

theorem baseRegister_error_registry (fuel : Nat) (tr : TypeRegistry)
    (key : String) (item : PyVal) (force : Bool) (e : String × TypeRegistry)
    (h : baseRegister fuel tr key item [] force = .error e) :
    e.2.registry = tr.registry := by
  unfold baseRegister at h
  split at h
  · exact Except.noConfusion h
  · rename_i e2 heq
    injection h with h1
    rw [← h1]
    exact registerKeysLoop_single_error fuel key item force tr.registry key e2 heq

theorem trRegisterSchema_error_registry (E : Externals) (fuel : Nat)
    (tr : TypeRegistry) (key : String) (entries : List (String × PyVal))
    (force : Bool) (e : String × TypeRegistry)
    (h : trRegisterSchema E fuel tr key entries [] force = .error e) :
    e.2.registry = tr.registry := by
  unfold trRegisterSchema at h
  split at h
  · rename_i e2 heq
    injection h with h1
    rw [← h1, supersOf_error tr key entries e2 heq]
  · rename_i se heq
    split at h
    · rename_i e2 heq2
      injection h with h1
      rw [← h1, superMergeFold_error fuel _ se.1 se.2 e2 heq2]
    · rename_i entries2 heq2
      split at h
      · rename_i e2 heq3
        have := normalizeEntries_registry E fuel entries2 _ _ _ heq3
        injection h with h1
        rw [← h1]
        exact this
      · rename_i norm heq3
        have hn := normalizeEntries_registry E fuel entries2 _ _ _ heq3
        exact (baseRegister_error_registry fuel norm.2 key (.dict norm.1)
          force e h).trans hn

/-- C3 (counterexample): the claim states a failed registration leaves the
registry exactly as it was.  Registering `B` with supertype `A` and a field
referring to an unregistered type fails, and the main mapping is indeed
unchanged — but the failure state already records the supertype edge
`B -> [A]`, which the pre-registration state does not have. -/
theorem c3_counterexample :
    exceptIsOk (trRegister E0 9 (trInit E0 9) "B"
        (PyVal.dict [("_super", PyVal.list [PyVal.str "A"]),
                     ("x", PyVal.str "missing")]) [] false) = false
    ∧ (match trRegister E0 9 (trInit E0 9) "B"
          (PyVal.dict [("_super", PyVal.list [PyVal.str "A"]),
                       ("x", PyVal.str "missing")]) [] false with
       | .error e => supersGet e.2.supers "B" = some ["A"]
       | .ok _ => False)
    ∧ supersGet (trInit E0 9).supers "B" = Option.none := ⟨rfl, rfl, rfl⟩

/-- C3 (amended): a registration that raises stores nothing under the new
key in the MAIN type mapping — for a registration without alternate keys the
main mapping of the failure state equals the pre-registration mapping — but
the registration is not transactional: the supertype-edge map (and behavior
sub-registries) may keep updates made before the raise, as the
counterexample shows. -/
theorem c3_no_partial_schema (E : Externals) (fuel : Nat) (tr : TypeRegistry)
    (key : String) (schema0 : PyVal) (force : Bool) (e : String × TypeRegistry)
    (h : trRegister E fuel tr key schema0 [] force = .error e) :
    e.2.registry = tr.registry := by
  unfold trRegister at h
  split at h
  · split at h
    · injection h with h1
      rw [← h1]
    · split at h
      · exact trRegisterSchema_error_registry E fuel tr key _ force e h
      · injection h with h1
        rw [← h1]
  · exact trRegisterSchema_error_registry E fuel tr key _ force e h
  · injection h with h1
    rw [← h1]

/-! ## C5: successful registrations store only normalized schemas -/

theorem filter_overridable_nonempty (entries : List (String × PyVal))
    (h : hasKey entries "_type" = true) :
    (entries.filter (fun kv => kv.1 ∈ overridableSchemaKeys)).isEmpty = false := by
  have h1 : (lookupKey entries "_type").isSome = true := h
  cases hl : lookupKey entries "_type" with
  | none =>
      rw [hl] at h1
      exact Bool.noConfusion h1
  | some v =>
      have hp : decide (("_type" : String) ∈ overridableSchemaKeys) = true := by decide
      have hmf : ("_type", v) ∈ entries.filter (fun kv => kv.1 ∈ overridableSchemaKeys) :=
        List.mem_filter.mpr ⟨lookupKey_mem hl, hp⟩
      cases hres : entries.filter (fun kv => kv.1 ∈ overridableSchemaKeys) with
      | nil =>
          rw [hres] at hmf
          exact absurd hmf (List.not_mem_nil _)
      | cons a l => rfl

theorem accessFinish_shape (found1 : PyVal) (hdict : found1.isDict = true)
    (w : PyVal) (h : accessFinish found1 = .ok (some w)) : w.isDict = true := by
  cases found1
  case dict fe =>
      have h' : (if hasKey fe "_type_parameters" then
          match syncTypeParams fe with
          | .error e => Except.error e
          | .ok fe' => Except.ok (some (PyVal.dict fe'))
        else Except.ok (some (PyVal.dict fe))) = .ok (some w) := h
      split at h'
      · split at h'
        · exact Except.noConfusion h'
        · injection h' with h1
          injection h1 with h2
          exact h2 ▸ rfl
      · injection h' with h1
        injection h1 with h2
        exact h2 ▸ rfl
  all_goals exact Bool.noConfusion hdict

theorem accessTypeGo_shape (rec : PyVal → Except String (Option PyVal))
    (fuel : Nat) (entries : List (String × PyVal))
    (hty : hasKey entries "_type" = true) (w : PyVal)
    (h : accessTypeGo rec fuel entries = .ok (some w)) : w.isDict = true := by
  unfold accessTypeGo at h
  split at h
  · exact Except.noConfusion h
  · rename_i found0 heq0
    split at h
    · rename_i e heqE
      rw [filter_overridable_nonempty entries hty] at heqE
      simp at heqE
    · rename_i enter heqE
      cases enter with
      | false =>
          rw [filter_overridable_nonempty entries hty] at heqE
          simp at heqE
      | true =>
          simp only [if_true] at h
          split at h
          · exact Except.noConfusion h
          · rename_i found1 heqF
            split at heqF
            · exact Except.noConfusion heqF
            · split at heqF
              · rename_i fe heqf
                injection heqF with h2
                exact accessFinish_shape found1 (h2 ▸ rfl) w h
              · injection heqF with h2
                exact accessFinish_shape found1 (h2 ▸ rfl) w h
              all_goals exact Except.noConfusion heqF

theorem accessDictGo_shape (rec : PyVal → Except String (Option PyVal))
    (fuel : Nat) (entries : List (String × PyVal)) (w : PyVal)
    (h : accessDictGo rec fuel entries = .ok (some w)) : w.isDict = true := by
  unfold accessDictGo at h
  split at h
  · injection h with h1
    injection h1 with h2
    exact h2 ▸ rfl
  · split at h
    · rename_i hd hty
      exact accessTypeGo_shape rec fuel entries hty w h
    · split at h
      · exact Except.noConfusion h
      · injection h with h1
        injection h1 with h2
        exact h2 ▸ rfl

theorem accessListGo_shape (rec : PyVal → Except String (Option PyVal))
    (hrec : ∀ x w, rec x = .ok (some w) → w.isDict = true)
    (xs : List PyVal) (w : PyVal)
    (h : accessListGo rec xs = .ok (some w)) : w.isDict = true := by
  unfold accessListGo at h
  split at h
  · exact Except.noConfusion h
  · rename_i x
    exact hrec x w h
  · rename_i x b
    split at h
    · exact Except.noConfusion h
    · rename_i found heqx
      split at h
      · exact Except.noConfusion h
      · rename_i blen heqb
        split at h
        · split at h
          · exact Except.noConfusion h
          · rename_i fe
            split at h
            · exact Except.noConfusion h
            · rename_i tps heqt
              split at h
              · exact Except.noConfusion h
              · split at h
                · exact Except.noConfusion h
                · split at h
                  · exact Except.noConfusion h
                  · injection h with h1
                    injection h1 with h2
                    exact h2 ▸ rfl
          all_goals exact Except.noConfusion h
        · injection h with h1
          exact hrec x w (h1 ▸ heqx)
  · exact Except.noConfusion h

theorem accessStrGo_shape (E : Externals) (reg : List (String × PyVal))
    (rec : PyVal → Except String (Option PyVal)) (fuel : Nat) (s : String)
    (w : PyVal)
    (hreg : ∀ kv ∈ reg, (kv.2).isDict = true)
    (hrec : ∀ x w, rec x = .ok (some w) → w.isDict = true)
    (h : accessStrGo E reg rec fuel s = .ok (some w)) : w.isDict = true := by
  unfold accessStrGo at h
  split at h
  · rename_i v heql
    injection h with h1
    injection h1 with h2
    exact h2 ▸ hreg (s, v) (lookupKey_mem heql)
  · split at h
    · injection h with h1
      exact Option.noConfusion h1
    · split at h
      · injection h with h1
        exact Option.noConfusion h1
      · split at h
        · rename_i r heqr
          injection h with h1
          exact hrec _ w (h1 ▸ heqr)
        · injection h with h1
          exact Option.noConfusion h1

theorem access_shape (E : Externals) (reg : List (String × PyVal))
    (hreg : ∀ kv ∈ reg, (kv.2).isDict = true) :
    ∀ (fuel : Nat) (v w : PyVal),
    access E reg fuel v = .ok (some w) → w.isDict = true := by
  intro fuel
  induction fuel with
  | zero =>
      intro v w h
      have h' : (Except.ok Option.none : Except String (Option PyVal))
          = .ok (some w) := h
      injection h' with h1
      exact Option.noConfusion h1
  | succ fuel ih =>
      intro v w h
      cases v
      case dict entries => exact accessDictGo_shape _ fuel entries w h
      case list xs => exact accessListGo_shape _ (fun x w hx => ih x w hx) xs w h
      case str s =>
          exact accessStrGo_shape E reg _ fuel s w hreg (fun x w hx => ih x w hx) h
      all_goals {
        have h' : (Except.ok Option.none : Except String (Option PyVal))
            = .ok (some w) := h
        injection h' with h1
        exact Option.noConfusion h1 }

theorem normalizedSchema_isDict {v : PyVal} (h : normalizedSchema v = true) :
    v.isDict = true := by
  cases v
  case dict entries => rfl
  all_goals exact Bool.noConfusion h

theorem normalizeStep_field (E : Externals) (fuel : Nat) (tr : TypeRegistry)
    (mk : Option String) (subkey : String) (sub : PyVal)
    (hreg : ∀ kv ∈ tr.registry, (kv.2).isDict = true)
    (step : PyVal × TypeRegistry × Option String)
    (h : normalizeStep E fuel tr mk subkey sub = .ok step) :
    normalizedField subkey step.1 = true := by
  unfold normalizeStep at h
  split at h
  · rename_i hfk
    repeat' split at h
    all_goals first
      | exact Except.noConfusion h
      | (injection h with h1
         rw [← h1]
         simp [normalizedField, hfk, PyVal.isStr])
  · split at h
    · rename_i hfk hts
      split at h
      · exact Except.noConfusion h
      · exact Except.noConfusion h
      · rename_i subschema heq
        injection h with h1
        rw [← h1]
        have : subschema.isDict = true :=
          access_shape E tr.registry hreg fuel sub subschema heq
        simp [normalizedField, hfk, hts, this]
    · rename_i hfk hts
      injection h with h1
      rw [← h1]
      simp [normalizedField, hfk, not_not.mp hts]

theorem normalizeEntries_fields (E : Externals) (fuel : Nat) :
    ∀ (entries : List (String × PyVal)) (tr : TypeRegistry) (mk : Option String)
    (norm : List (String × PyVal) × TypeRegistry),
    (∀ kv ∈ tr.registry, (kv.2).isDict = true) →
    normalizeEntries E fuel tr mk entries = .ok norm →
    ∀ kv ∈ norm.1, normalizedField kv.1 kv.2 = true := by
  intro entries
  induction entries with
  | nil =>
      intro tr mk norm hreg h kv hmem
      have h' : (Except.ok (([], tr) :
          List (String × PyVal) × TypeRegistry)) = .ok norm := h
      injection h' with h1
      rw [← h1] at hmem
      exact absurd hmem (List.not_mem_nil _)
  | cons kv0 rest ih =>
      intro tr mk norm hreg h kv hmem
      obtain ⟨subkey, sub⟩ := kv0
      rw [normalizeEntries_cons] at h
      split at h
      · exact Except.noConfusion h
      · rename_i step heq
        split at h
        · exact Except.noConfusion h
        · rename_i tail heq2
          injection h with h1
          rw [← h1] at hmem
          have hmem' : kv ∈ (subkey, step.1) :: tail.1 := hmem
          have hr2 := normalizeStep_registry E fuel tr mk subkey sub
          rw [heq] at hr2
          have hr3 : step.2.1.registry = tr.registry := hr2
          have hreg2 : ∀ kv2 ∈ step.2.1.registry, (kv2.2).isDict = true := by
            rw [hr3]; exact hreg
          rcases List.mem_cons.mp hmem' with hkv | hkv
          · rw [hkv]
            exact normalizeStep_field E fuel tr mk subkey sub hreg step heq
          · exact ih step.2.1 step.2.2 tail hreg2 heq2 kv hkv

theorem registerKeysLoop_preserve (P : PyVal → Bool) (fuel : Nat) (p : String)
    (item : PyVal) (force : Bool) (hitem : P item = true) :
    ∀ (keys : List String) (reg reg' : List (String × PyVal)),
    (∀ kv ∈ reg, P kv.2 = true) →
    registerKeysLoop fuel p item force reg keys = .ok reg' →
    ∀ kv ∈ reg', P kv.2 = true := by
  intro keys
  induction keys with
  | nil =>
      intro reg reg' hreg h kv hm
      rw [registerKeysLoop_nil] at h
      injection h with h1
      rw [← h1] at hm
      exact hreg kv hm
  | cons rk rest ih =>
      intro reg reg' hreg h kv hm
      rw [registerKeysLoop_cons] at h
      have hset : ∀ kv2 ∈ dictSetList reg rk item, P kv2.2 = true := by
        intro kv2 hm2
        rcases mem_dictSetList hm2 with h2 | h2
        · exact hreg kv2 h2
        · rw [h2]; exact hitem
      split at h
      · split at h
        · exact ih _ _ hset h kv hm
        · split at h
          · exact ih _ _ hreg h kv hm
          · split at h <;> exact Except.noConfusion h
      · exact ih _ _ hset h kv hm

theorem trRegisterSchema_normalized (E : Externals) (fuel : Nat)
    (tr : TypeRegistry) (key : String) (entries : List (String × PyVal))
    (altKeys : List String) (force : Bool) (tr' : TypeRegistry)
    (hinv : ∀ kv ∈ tr.registry, normalizedSchema kv.2 = true)
    (h : trRegisterSchema E fuel tr key entries altKeys force = .ok tr') :
    ∀ kv ∈ tr'.registry, normalizedSchema kv.2 = true := by
  unfold trRegisterSchema at h
  split at h
  · exact Except.noConfusion h
  · rename_i se heq
    split at h
    · exact Except.noConfusion h
    · rename_i entries2 heq2
      split at h
      · exact Except.noConfusion h
      · rename_i norm heq3
        have hdict : ∀ kv ∈ tr.registry, (kv.2).isDict = true :=
          fun kv hm => normalizedSchema_isDict (hinv kv hm)
        have hr : (outReg (Except.ok norm)).registry
            = ({ tr with supers := supersSet tr.supers key se.1 } :
                TypeRegistry).registry :=
          normalizeEntries_registry E fuel entries2 _ _ _ heq3
        have hr2 : norm.2.registry = tr.registry := hr
        have hfields := normalizeEntries_fields E fuel entries2
          { tr with supers := supersSet tr.supers key se.1 } Option.none norm
          hdict heq3
        have hitem : normalizedSchema (.dict norm.1) = true := by
          show norm.1.all (fun kv => normalizedField kv.1 kv.2) = true
          rw [List.all_eq_true]
          intro kv hm
          exact hfields kv hm
        unfold baseRegister at h
        split at h
        · rename_i reg2 heq4
          injection h with h1
          rw [← h1]
          intro kv hm
          have hm' : kv ∈ reg2 := hm
          exact registerKeysLoop_preserve normalizedSchema fuel key
            (.dict norm.1) force hitem (key :: altKeys) norm.2.registry reg2
            (by rw [hr2]; exact hinv) heq4 kv hm'
        · exact Except.noConfusion h

/-- C5 (confirmed): registration preserves the invariant that every stored
schema is fully normalized — behavior fields (`_apply`, `_check`,
`_serialize`, `_deserialize`, `_divide`, and `_react`, which can never be
stored) hold a name string, never a callable, and every non-reserved branch
key holds a resolved mapping, never an unresolved string — and in particular
whatever the successful call leaves stored under the registered key is
normalized. -/
theorem c5_normalized (E : Externals) (fuel : Nat) (tr : TypeRegistry)
    (key : String) (schema0 : PyVal) (altKeys : List String) (force : Bool)
    (tr' : TypeRegistry)
    (hinv : ∀ kv ∈ tr.registry, normalizedSchema kv.2 = true)
    (h : trRegister E fuel tr key schema0 altKeys force = .ok tr') :
    (∀ kv ∈ tr'.registry, normalizedSchema kv.2 = true)
    ∧ (∀ w, lookupKey tr'.registry key = some w → normalizedSchema w = true) := by
  suffices hall : ∀ kv ∈ tr'.registry, normalizedSchema kv.2 = true by
    exact ⟨hall, fun w hw => hall (key, w) (lookupKey_mem hw)⟩
  unfold trRegister at h
  split at h
  · split at h
    · exact Except.noConfusion h
    · split at h
      · exact trRegisterSchema_normalized E fuel tr key _ altKeys force tr' hinv h
      · exact Except.noConfusion h
  · exact trRegisterSchema_normalized E fuel tr key _ altKeys force tr' hinv h
  · exact Except.noConfusion h

/-- C5 (witness): the theorem applied to a concrete successful registration
(`mytype` with an `int` default and a branch referring to `any`, over the
freshly initialized registry): the resulting registry is fully normalized,
including what is stored under `mytype`. -/
theorem c5_normalized_witness :
    (match trRegister E0 9 (trInit E0 9) "mytype"
        (PyVal.dict [("_default", PyVal.int 0), ("a", PyVal.str "any")]) [] false with
     | .ok tr2 => (∀ kv ∈ tr2.registry, normalizedSchema kv.2 = true)
         ∧ (∀ w, lookupKey tr2.registry "mytype" = some w →
             normalizedSchema w = true)
     | .error _ => False) := by
  split
  · rename_i tr2 heq
    exact c5_normalized E0 9 (trInit E0 9) "mytype"
      (PyVal.dict [("_default", PyVal.int 0), ("a", PyVal.str "any")]) [] false tr2
      (by decide) heq
  · rename_i e heq
    have hok : exceptIsOk (trRegister E0 9 (trInit E0 9) "mytype"
        (PyVal.dict [("_default", PyVal.int 0), ("a", PyVal.str "any")]) [] false)
        = true := rfl
    rw [heq] at hok
    exact Bool.noConfusion hok

/-- C3 (witness): the theorem applied to the concrete failing registration of
the counterexample: its failure state's main mapping is the one of the
freshly initialized registry. -/
theorem c3_no_partial_schema_witness :
    (match trRegister E0 9 (trInit E0 9) "B"
        (PyVal.dict [("_super", PyVal.list [PyVal.str "A"]),
                     ("x", PyVal.str "missing")]) [] false with
     | .error e => e.2.registry = (trInit E0 9).registry
     | .ok _ => True) := by
  split
  · rename_i e heq
    exact c3_no_partial_schema E0 9 (trInit E0 9) "B"
      (PyVal.dict [("_super", PyVal.list [PyVal.str "A"]),
                   ("x", PyVal.str "missing")]) false e heq
  · trivial

end Bigraph
